import Mathlib

/-!
# Sprite scene: model matrix, projection, texture loading and frame loop

A shallow embedding of `src/main.cpp`.

* A `float` is a value of `F32`: a finite rational, an infinity or a NaN. Every
  arithmetic operation rounds its exact result to the nearest binary32 value,
  ties to even, with gradual underflow and overflow to infinity. The sign of
  zero is not kept. `cos`, `sin` and `sqrt` of the C math library are the fields
  of `MathFns`.
* GLM values are structures: a `Mat4` is four columns, as `glm::mat4` is, and
  the GLM functions (`translate`, `rotate`, `scale`, `ortho`, `radians`,
  `normalize`) are written column by column as GLM computes them.
* The OpenGL, GLFW, stb_image and `Shader` calls a function makes are recorded,
  in program order, as a list of `Call`; values those libraries return
  (texture names, decoded images, the window, the loop test) are inputs.
-/

namespace SpriteScene

/-! ## binary32 arithmetic -/

/-- A `float`: a finite value, plus or minus infinity (`neg` for minus), or a
NaN. A finite value that arithmetic produces is always a binary32 value; see
`F32.IsFinite`. -/
inductive F32 where
  | fin (q : ℚ)
  | inf (neg : Bool)
  | nan
  deriving DecidableEq, Repr

namespace F32

/-- The integer nearest to `t`; a tie goes to the even neighbour. -/
def roundHalfEven (t : ℚ) : ℤ :=
  if t - ⌊t⌋ < 1 / 2 then ⌊t⌋
  else if 1 / 2 < t - ⌊t⌋ then ⌊t⌋ + 1
  else if ⌊t⌋ % 2 = 0 then ⌊t⌋ else ⌊t⌋ + 1

/-- The number of halvings that bring `n` below 2: the floor of its binary
logarithm when `fuel` is at least `n`. -/
def natLog2 : ℕ → ℕ → ℕ
  | 0, _ => 0
  | fuel + 1, n => if n < 2 then 0 else natLog2 fuel (n / 2) + 1

/-- The floor of the binary logarithm of a positive rational. -/
def ilog2 (q : ℚ) : ℤ :=
  let e0 : ℤ := (natLog2 q.num.natAbs q.num.natAbs : ℤ) - (natLog2 q.den q.den : ℤ)
  if q < 2 ^ e0 then e0 - 1 else e0

/-- The exponent of the spacing of binary32 values around a positive `q`: 23
below the binary exponent of `q` (24 significant bits), and -149 in the
subnormal range. -/
def ulpExp (q : ℚ) : ℤ := max (ilog2 q - 23) (-149)

/-- The multiple of the spacing nearest to a positive `q`, ties to even. -/
def roundMag (q : ℚ) : ℚ := roundHalfEven (q / 2 ^ ulpExp q) * 2 ^ ulpExp q

/-- Rounding of an exact result to binary32, to nearest with ties to even; a
magnitude that rounds to 2^128 or more overflows to infinity. -/
def rne (q : ℚ) : F32 :=
  if q = 0 then fin 0
  else if (2 : ℚ) ^ (128 : ℤ) ≤ roundMag |q| then inf (decide (q < 0))
  else fin (if q < 0 then -roundMag |q| else roundMag |q|)

/-- The negation of a `float`; exact. -/
def neg : F32 → F32
  | fin q => fin (-q)
  | inf b => inf (!b)
  | nan => nan

/-- The sum of two `float`s. -/
def add : F32 → F32 → F32
  | fin a, fin b => rne (a + b)
  | fin _, inf b => inf b
  | inf a, fin _ => inf a
  | inf a, inf b => if a = b then inf a else nan
  | _, _ => nan

/-- The difference of two `float`s. -/
def sub (x y : F32) : F32 := add x (neg y)

/-- The product of two `float`s; zero times infinity is a NaN. -/
def mul : F32 → F32 → F32
  | fin a, fin b => rne (a * b)
  | fin a, inf b => if a = 0 then nan else inf (xor (decide (a < 0)) b)
  | inf a, fin b => if b = 0 then nan else inf (xor a (decide (b < 0)))
  | inf a, inf b => inf (xor a b)
  | _, _ => nan

/-- The quotient of two `float`s; a nonzero value over zero is an infinity
(zero counts as positive), zero over zero is a NaN. -/
def div : F32 → F32 → F32
  | fin a, fin b =>
    if b = 0 then (if a = 0 then nan else inf (decide (a < 0))) else rne (a / b)
  | fin _, inf _ => fin 0
  | inf a, fin b => inf (xor a (decide (b < 0)))
  | _, _ => nan

instance : Neg F32 := ⟨neg⟩
instance : Add F32 := ⟨add⟩
instance : Sub F32 := ⟨sub⟩
instance : Mul F32 := ⟨mul⟩
instance : Div F32 := ⟨div⟩

/-- An integer literal converted to `float`. -/
instance (n : ℕ) : OfNat F32 n := ⟨rne n⟩

/-- A decimal literal with suffix `f`: the nearest `float`. -/
instance : OfScientific F32 := ⟨fun m s e => rne (OfScientific.ofScientific m s e)⟩

/-- A finite binary32 value: rounding leaves it as it is. -/
def IsFinite : F32 → Prop
  | fin q => rne q = fin q
  | _ => False

instance : DecidablePred IsFinite := fun x => by
  cases x <;> unfold IsFinite <;> infer_instance

/-- A finite binary32 value in [-1, 1], as a cosine or a sine is. -/
def InUnitRange : F32 → Prop
  | fin q => rne q = fin q ∧ |q| ≤ 1
  | _ => False

instance : DecidablePred InUnitRange := fun x => by
  cases x <;> unfold InUnitRange <;> infer_instance

/-- The rational a finite `float` stands for; 0 for an infinity or a NaN. -/
def toRat : F32 → ℚ
  | fin q => q
  | _ => 0

end F32

/-! ## GLM vectors and matrices -/

/-- A `glm::vec2`. -/
structure Vec2 (K : Type) where
  x : K
  y : K
  deriving DecidableEq, Repr

/-- A `glm::vec3`. -/
structure Vec3 (K : Type) where
  x : K
  y : K
  z : K
  deriving DecidableEq, Repr

/-- A `glm::vec4`. -/
structure Vec4 (K : Type) where
  x : K
  y : K
  z : K
  w : K
  deriving DecidableEq, Repr

/-- A `glm::mat4`: `c0 .. c3` are the columns `m[0] .. m[3]`. -/
structure Mat4 (K : Type) where
  c0 : Vec4 K
  c1 : Vec4 K
  c2 : Vec4 K
  c3 : Vec4 K
  deriving DecidableEq, Repr

/-- The math-library functions on `float` that GLM calls. -/
structure MathFns (K : Type) where
  cos : K → K
  sin : K → K
  sqrt : K → K

/-- Component-wise `vec4 + vec4`. -/
def Vec4.add (a b : Vec4 F32) : Vec4 F32 :=
  ⟨a.x + b.x, a.y + b.y, a.z + b.z, a.w + b.w⟩

/-- The product `vec4 * scalar`. -/
def Vec4.mulS (a : Vec4 F32) (s : F32) : Vec4 F32 :=
  ⟨a.x * s, a.y * s, a.z * s, a.w * s⟩

/-- The product `scalar * vec3`. -/
def Vec3.smul (s : F32) (a : Vec3 F32) : Vec3 F32 :=
  ⟨s * a.x, s * a.y, s * a.z⟩

/-- The product `vec3 * scalar`. -/
def Vec3.mulS (a : Vec3 F32) (s : F32) : Vec3 F32 :=
  ⟨a.x * s, a.y * s, a.z * s⟩

/-- The constructor `glm::vec2(s)`: both components are `s`. -/
def Vec2.splat (s : F32) : Vec2 F32 := ⟨s, s⟩

/-- The constructor `glm::vec3(v, z)` from a `vec2` and a scalar. -/
def Vec3.ofVec2 (v : Vec2 F32) (z : F32) : Vec3 F32 := ⟨v.x, v.y, z⟩

/-- The constructor `glm::mat4(s)`: `s` on the diagonal, zero elsewhere. -/
def Mat4.diag (s : F32) : Mat4 F32 :=
  ⟨⟨s, 0, 0, 0⟩, ⟨0, s, 0, 0⟩, ⟨0, 0, s, 0⟩, ⟨0, 0, 0, s⟩⟩

/-- The product `mat4 * vec4` of GLM (and of GLSL): the columns of `m`
weighted by the components of `v`, summed as `(m0 x + m1 y) + (m2 z + m3 w)`,
every product and sum rounded. -/
def Mat4.mulVec (m : Mat4 F32) (v : Vec4 F32) : Vec4 F32 :=
  ((m.c0.mulS v.x).add (m.c1.mulS v.y)).add ((m.c2.mulS v.z).add (m.c3.mulS v.w))

/-- The product `mat4 * mat4` of GLM: column `j` of the result is
`a[0] * b[j][0] + a[1] * b[j][1] + a[2] * b[j][2] + a[3] * b[j][3]`, every
product and sum rounded. -/
def Mat4.mul (a b : Mat4 F32) : Mat4 F32 :=
  let col (bj : Vec4 F32) : Vec4 F32 :=
    (((a.c0.mulS bj.x).add (a.c1.mulS bj.y)).add (a.c2.mulS bj.z)).add (a.c3.mulS bj.w)
  ⟨col b.c0, col b.c1, col b.c2, col b.c3⟩

/-! ## GLM functions used by the program -/

namespace glm

/-- The function `glm::radians`: degrees times GLM's literal for pi / 180. -/
def radians (degrees : F32) : F32 :=
  degrees * (0.01745329251994329576923690768489 : F32)

/-- The function `glm::dot` on `vec3`. -/
def dot (a b : Vec3 F32) : F32 := a.x * b.x + a.y * b.y + a.z * b.z

/-- The function `glm::inversesqrt`: `1 / sqrt(x)`. -/
def inversesqrt (ops : MathFns F32) (x : F32) : F32 := 1 / ops.sqrt x

/-- The function `glm::normalize` on `vec3`: `v * inversesqrt(dot(v, v))`. -/
def normalize (ops : MathFns F32) (v : Vec3 F32) : Vec3 F32 :=
  v.mulS (inversesqrt ops (dot v v))

/-- The function `glm::translate(m, v)`: the first three columns of `m` are kept
and `Result[3] = m[0] * v[0] + m[1] * v[1] + m[2] * v[2] + m[3]`. -/
def translate (m : Mat4 F32) (v : Vec3 F32) : Mat4 F32 :=
  { m with c3 := (((m.c0.mulS v.x).add (m.c1.mulS v.y)).add (m.c2.mulS v.z)).add m.c3 }

/-- The function `glm::rotate(m, angle, v)`: builds the axis-angle rotation
`Rotate` from `c = cos(angle)`, `s = sin(angle)`, `axis = normalize(v)` and
`temp = (1 - c) * axis`, then multiplies the columns of `m` by it. Here `rCR`
stands for `Rotate[C][R]`. -/
def rotate (ops : MathFns F32) (m : Mat4 F32) (angle : F32) (v : Vec3 F32) : Mat4 F32 :=
  let a := angle
  let c := ops.cos a
  let s := ops.sin a
  let axis := normalize ops v
  let temp := Vec3.smul (1 - c) axis
  let r00 := c + temp.x * axis.x
  let r01 := temp.x * axis.y + s * axis.z
  let r02 := temp.x * axis.z - s * axis.y
  let r10 := temp.y * axis.x - s * axis.z
  let r11 := c + temp.y * axis.y
  let r12 := temp.y * axis.z + s * axis.x
  let r20 := temp.z * axis.x + s * axis.y
  let r21 := temp.z * axis.y - s * axis.x
  let r22 := c + temp.z * axis.z
  { c0 := ((m.c0.mulS r00).add (m.c1.mulS r01)).add (m.c2.mulS r02)
    c1 := ((m.c0.mulS r10).add (m.c1.mulS r11)).add (m.c2.mulS r12)
    c2 := ((m.c0.mulS r20).add (m.c1.mulS r21)).add (m.c2.mulS r22)
    c3 := m.c3 }

/-- The function `glm::scale(m, v)`: column `i` of `m` times `v[i]`, the last
column kept. -/
def scale (m : Mat4 F32) (v : Vec3 F32) : Mat4 F32 :=
  { c0 := m.c0.mulS v.x
    c1 := m.c1.mulS v.y
    c2 := m.c2.mulS v.z
    c3 := m.c3 }

/-- The function `glm::ortho(left, right, bottom, top, zNear, zFar)` in GLM's
default configuration (right-handed, clip depth -1 .. 1): starts from
`mat4(1)` and sets the three diagonal scales and the translation column. -/
def ortho (left right bottom top zNear zFar : F32) : Mat4 F32 :=
  let r : Mat4 F32 := Mat4.diag 1
  { c0 := { r.c0 with x := 2 / (right - left) }
    c1 := { r.c1 with y := 2 / (top - bottom) }
    c2 := { r.c2 with z := -2 / (zFar - zNear) }
    c3 := { r.c3 with
            x := -(right + left) / (right - left)
            y := -(top + bottom) / (top - bottom)
            z := -(zFar + zNear) / (zFar - zNear) } }

end glm

/-! ## Calls into OpenGL, GLFW, stb_image and the Shader class -/

/-- The OpenGL enumerants the program passes. -/
inductive GLenum where
  | TEXTURE_2D
  | TEXTURE_WRAP_S
  | TEXTURE_WRAP_T
  | TEXTURE_MIN_FILTER
  | TEXTURE_MAG_FILTER
  | CLAMP_TO_EDGE
  | LINEAR
  | RGB
  | RGBA
  | UNSIGNED_BYTE
  | TRIANGLES
  | BLEND
  | SRC_ALPHA
  | ONE_MINUS_SRC_ALPHA
  | ARRAY_BUFFER
  | STATIC_DRAW
  | FLOAT
  | COLOR_BUFFER_BIT
  deriving DecidableEq, Repr

/-- The GLFW constants the program passes. -/
inductive GLFWenum where
  | CONTEXT_VERSION_MAJOR
  | CONTEXT_VERSION_MINOR
  | OPENGL_PROFILE
  | OPENGL_CORE_PROFILE
  deriving DecidableEq, Repr

/-- One call the program makes, with its arguments; a run of the program is a
list of these in program order. Byte counts are in units of `sizeof(float)`. A
name or handle a call writes or returns is listed among its arguments. -/
inductive Call (K : Type) where
  | shaderUse (shader : Nat)
  | shaderSetMat4 (shader : Nat) (name : String) (value : Mat4 K)
  | glBindTexture (target : GLenum) (texture : Nat)
  | glBindVertexArray (array : Nat)
  | glDrawArrays (mode : GLenum) (first count : Nat)
  | glGenTextures (n : Nat) (name : Nat)
  | glTexParameteri (target pname param : GLenum)
  | glTexImage2D (target : GLenum) (level : Nat) (internalformat : GLenum)
      (width height : Int) (border : Nat) (format type : GLenum) (pixels : List Nat)
  | glGenerateMipmap (target : GLenum)
  | cout (line : String)
  | stbi_image_free (data : Option (List Nat))
  | glEnable (cap : GLenum)
  | glBlendFunc (sfactor dfactor : GLenum)
  | shaderCreate (shader : Nat) (vertexPath fragmentPath : String)
  | glGenVertexArrays (n : Nat) (name : Nat)
  | glGenBuffers (n : Nat) (name : Nat)
  | glBindBuffer (target : GLenum) (buffer : Nat)
  | glBufferData (target : GLenum) (floats : List K) (usage : GLenum)
  | glVertexAttribPointer (index size : Nat) (type : GLenum) (normalized : Bool)
      (stride offset : Nat)
  | glEnableVertexAttribArray (index : Nat)
  | glClearColor (r g b a : K)
  | glClear (mask : GLenum)
  | glfwInit
  | glfwWindowHint (hint : GLFWenum) (value : Int ⊕ GLFWenum)
  | glfwCreateWindow (width height : Int) (title : String) (window : Nat)
  | glfwMakeContextCurrent (window : Nat)
  | gladLoadGLLoader
  | glfwSwapBuffers (window : Nat)
  | glfwPollEvents
  | glfwTerminate
  deriving DecidableEq

/-- What `stbi_load(path, &width, &height, &nrChannels, 0)` yields when it
succeeds: the three `int` outputs and the pixel bytes. -/
structure Image where
  width : Int
  height : Int
  nrChannels : Int
  data : List Nat
  deriving DecidableEq, Repr

/-! ## class Sprite -/

/-- The fields of `class Sprite`; `shader` is the `Shader*`. -/
structure Sprite (K : Type) where
  VAO : Nat
  textureID : Nat
  position : Vec2 K
  scale : Vec2 K
  rotation : K
  shader : Nat
  deriving DecidableEq

/-- The constructor `Sprite(vao, texID, shaderPtr)`: position `vec2(0)`, scale
`vec2(1)`, rotation `0`. -/
def Sprite.new (vao texID shaderPtr : Nat) : Sprite F32 :=
  { VAO := vao, textureID := texID, shader := shaderPtr,
    position := Vec2.splat 0.0, scale := Vec2.splat 1.0, rotation := 0.0 }

/-- The local `model` of `Sprite::draw`, as built by its first four statements:
`mat4(1)`, then `translate`, `rotate`, `scale`. -/
def Sprite.drawModel (ops : MathFns F32) (self : Sprite F32) : Mat4 F32 :=
  let model : Mat4 F32 := Mat4.diag 1.0
  let model := glm.translate model (Vec3.ofVec2 self.position 0.0)
  let model := glm.rotate ops model (glm.radians self.rotation) ⟨0, 0, 1⟩
  let model := glm.scale model (Vec3.ofVec2 self.scale 1.0)
  model

/-- The method `Sprite::draw(projection)`: returns the object after the call and
the calls made. -/
def Sprite.draw (ops : MathFns F32) (self : Sprite F32) (projection : Mat4 F32) :
    Sprite F32 × List (Call F32) :=
  let model := self.drawModel ops
  (self,
    [ Call.shaderUse self.shader,
      Call.shaderSetMat4 self.shader "model" model,
      Call.shaderSetMat4 self.shader "projection" projection,
      Call.glBindTexture GLenum.TEXTURE_2D self.textureID,
      Call.glBindVertexArray self.VAO,
      Call.glDrawArrays GLenum.TRIANGLES 0 6,
      Call.glBindVertexArray 0 ])

/-! ## loadTexture -/

/-- The function `loadTexture(path)`. `stbi_load` is the decoder (`none` is its
null result) and `name` is the texture name `glGenTextures` writes. Returns the
`GLuint` result and the calls made. -/
def loadTexture {K : Type} (stbi_load : String → Option Image) (name : Nat) (path : String) :
    Nat × List (Call K) :=
  let textureID := name
  let head : List (Call K) :=
    [ Call.glGenTextures 1 textureID,
      Call.glBindTexture GLenum.TEXTURE_2D textureID,
      Call.glTexParameteri GLenum.TEXTURE_2D GLenum.TEXTURE_WRAP_S GLenum.CLAMP_TO_EDGE,
      Call.glTexParameteri GLenum.TEXTURE_2D GLenum.TEXTURE_WRAP_T GLenum.CLAMP_TO_EDGE,
      Call.glTexParameteri GLenum.TEXTURE_2D GLenum.TEXTURE_MIN_FILTER GLenum.LINEAR,
      Call.glTexParameteri GLenum.TEXTURE_2D GLenum.TEXTURE_MAG_FILTER GLenum.LINEAR ]
  match stbi_load path with
  | some img =>
    let format := if img.nrChannels = 4 then GLenum.RGBA else GLenum.RGB
    (textureID,
      head ++
      [ Call.glTexImage2D GLenum.TEXTURE_2D 0 format img.width img.height 0 format
          GLenum.UNSIGNED_BYTE img.data,
        Call.glGenerateMipmap GLenum.TEXTURE_2D,
        Call.stbi_image_free (some img.data) ])
  | none =>
    (textureID,
      head ++
      [ Call.cout ("Failed to load texture: " ++ path),
        Call.stbi_image_free none ])

/-! ## main -/

/-- What the libraries hand back to `main`: the window `glfwCreateWindow`
returns, the decoder, the name written by each of the four `glGenTextures`
calls (in call order), the names written by `glGenVertexArrays` and
`glGenBuffers`, and the address of the `Shader`. -/
structure Env where
  window : Nat
  stbi_load : String → Option Image
  texName : Fin 4 → Nat
  vaoName : Nat
  vboName : Nat
  shader : Nat

/-- The array `vertices` of `main`: per vertex, position then texture
coordinate. -/
def vertices : List F32 :=
  [ -0.5, -0.5, 0.0, 0.0,
     0.5, -0.5, 1.0, 0.0,
     0.5,  0.5, 1.0, 1.0,

     0.5,  0.5, 1.0, 1.0,
    -0.5,  0.5, 0.0, 1.0,
    -0.5, -0.5, 0.0, 0.0 ]

/-- The variable `projection` of `main`. -/
def projection : Mat4 F32 := glm.ortho 0.0 800.0 0.0 600.0 (-1.0) 1.0

/-- The locals of `main` that the frame loop uses. -/
structure Scene where
  window : Nat
  background : Sprite F32
  tree : Sprite F32
  dragon : Sprite F32
  character : Sprite F32
  projection : Mat4 F32

/-- The part of `main` before the loop: GLFW and the window, the GL loader,
blending, the shader, the mesh upload and its two attributes, the four textures
in the order tree, dragon, character, background, the four sprites and the
projection. Returns the locals and the calls made. -/
def setup (env : Env) : Scene × List (Call F32) :=
  let window := env.window
  let VAO := env.vaoName
  let VBO := env.vboName
  let t0 : List (Call F32) :=
    [ Call.glfwInit,
      Call.glfwWindowHint GLFWenum.CONTEXT_VERSION_MAJOR (Sum.inl 3),
      Call.glfwWindowHint GLFWenum.CONTEXT_VERSION_MINOR (Sum.inl 3),
      Call.glfwWindowHint GLFWenum.OPENGL_PROFILE (Sum.inr GLFWenum.OPENGL_CORE_PROFILE),
      Call.glfwCreateWindow 800 600 "Sprite Scene" window,
      Call.glfwMakeContextCurrent window,
      Call.gladLoadGLLoader,
      Call.glEnable GLenum.BLEND,
      Call.glBlendFunc GLenum.SRC_ALPHA GLenum.ONE_MINUS_SRC_ALPHA,
      Call.shaderCreate env.shader "shaders/vertex_shader.glsl" "shaders/fragment_shader.glsl",
      Call.glGenVertexArrays 1 VAO,
      Call.glGenBuffers 1 VBO,
      Call.glBindVertexArray VAO,
      Call.glBindBuffer GLenum.ARRAY_BUFFER VBO,
      Call.glBufferData GLenum.ARRAY_BUFFER vertices GLenum.STATIC_DRAW,
      Call.glVertexAttribPointer 0 2 GLenum.FLOAT false 4 0,
      Call.glEnableVertexAttribArray 0,
      Call.glVertexAttribPointer 1 2 GLenum.FLOAT false 4 2,
      Call.glEnableVertexAttribArray 1 ]
  let (texTree, t1) := loadTexture env.stbi_load (env.texName 0) "textures/tree.png"
  let (texDragon, t2) := loadTexture env.stbi_load (env.texName 1) "textures/dragon.png"
  let (texChar, t3) := loadTexture env.stbi_load (env.texName 2) "textures/character.png"
  let (texBg, t4) := loadTexture env.stbi_load (env.texName 3) "textures/background.png"
  let background : Sprite F32 := Sprite.new VAO texBg env.shader
  let background := { background with position := ⟨400, 300⟩ }
  let background := { background with scale := ⟨800, 600⟩ }
  let tree : Sprite F32 := Sprite.new VAO texTree env.shader
  let tree := { tree with position := ⟨150, 100⟩ }
  let tree := { tree with scale := ⟨128, 128⟩ }
  let dragon : Sprite F32 := Sprite.new VAO texDragon env.shader
  let dragon := { dragon with position := ⟨600, 350⟩ }
  let dragon := { dragon with scale := ⟨96, 96⟩ }
  let character : Sprite F32 := Sprite.new VAO texChar env.shader
  let character := { character with position := ⟨400, 200⟩ }
  let character := { character with scale := ⟨64, 64⟩ }
  ({ window := window, background := background, tree := tree, dragon := dragon,
     character := character, projection := projection },
   t0 ++ t1 ++ t2 ++ t3 ++ t4)

/-- The body of the `while` loop of `main`: one frame. Returns the locals after
the frame and the calls made. -/
def frame (ops : MathFns F32) (sc : Scene) : Scene × List (Call F32) :=
  let t0 : List (Call F32) :=
    [ Call.glClearColor 0.3 0.4 0.6 1.0,
      Call.glClear GLenum.COLOR_BUFFER_BIT ]
  let (background, t1) := sc.background.draw ops sc.projection
  let (tree, t2) := sc.tree.draw ops sc.projection
  let (dragon, t3) := sc.dragon.draw ops sc.projection
  let (character, t4) := sc.character.draw ops sc.projection
  ({ sc with background := background, tree := tree, dragon := dragon,
             character := character },
   t0 ++ t1 ++ t2 ++ t3 ++ t4 ++ [Call.glfwSwapBuffers sc.window, Call.glfwPollEvents])

/-- The loop `while (!glfwWindowShouldClose(window))`: `closes` lists the values
`glfwWindowShouldClose` returns at the successive tests. The loop ends at the
first `true`, with the locals and the calls made; `none` when the list holds no
`true`, as the loop has not ended then. -/
def mainLoop (ops : MathFns F32) (sc : Scene) : List Bool → Option (Scene × List (Call F32))
  | [] => none
  | true :: _ => some (sc, [])
  | false :: rest =>
    let (sc1, t) := frame ops sc
    match mainLoop ops sc1 rest with
    | some (sc2, ts) => some (sc2, t ++ ts)
    | none => none

/-- The function `main`: set-up, the loop, then `glfwTerminate`; `none` when
the loop does not end within the listed tests. -/
def main (ops : MathFns F32) (env : Env) (closes : List Bool) : Option (List (Call F32)) :=
  let (sc, t0) := setup env
  match mainLoop ops sc closes with
  | some (_, t1) => some (t0 ++ t1 ++ [Call.glfwTerminate])
  | none => none

/-! ## Reading a list of calls -/

section Reading

variable {K : Type}

/-- The matrices uploaded under the uniform `name`, in call order. -/
def uniformUploads (name : String) : List (Call K) → List (Mat4 K)
  | [] => []
  | Call.shaderSetMat4 _ n v :: rest =>
    if n = name then v :: uniformUploads name rest else uniformUploads name rest
  | _ :: rest => uniformUploads name rest

/-- The `glTexImage2D` and `glGenerateMipmap` calls of a list, in call order. -/
def textureWrites : List (Call K) → List (Call K)
  | [] => []
  | Call.glTexImage2D t l i w h b f ty px :: rest =>
    Call.glTexImage2D t l i w h b f ty px :: textureWrites rest
  | Call.glGenerateMipmap t :: rest => Call.glGenerateMipmap t :: textureWrites rest
  | _ :: rest => textureWrites rest

/-- The lines written to `std::cout`, in call order. -/
def coutLines : List (Call K) → List String
  | [] => []
  | Call.cout line :: rest => line :: coutLines rest
  | _ :: rest => coutLines rest

/-- The capabilities passed to `glEnable`, in call order. -/
def enabledCaps : List (Call K) → List GLenum
  | [] => []
  | Call.glEnable cap :: rest => cap :: enabledCaps rest
  | _ :: rest => enabledCaps rest

end Reading

/-! ## The mesh as OpenGL reads it -/

section Mesh

variable {K : Type}

/-- The two-float attribute of vertex `i` in a buffer of floats laid out by
`glVertexAttribPointer(index, 2, GL_FLOAT, GL_FALSE, stride, offset)`, with
`stride` and `offset` counted in floats; `none` when it lies past the end of
the buffer. -/
def attrib2 (buf : List K) (stride offset i : Nat) : Option (Vec2 K) :=
  match buf[stride * i + offset]?, buf[stride * i + offset + 1]? with
  | some x, some y => some ⟨x, y⟩
  | _, _ => none

/-- The two-float attributes of the vertices `first .. first + count - 1`;
`none` when one of them lies past the end of the buffer. -/
def readAttribs (buf : List K) (stride offset first : Nat) : Nat → Option (List (Vec2 K))
  | 0 => some []
  | count + 1 =>
    match readAttribs buf stride offset first count,
      attrib2 buf stride offset (first + count) with
    | some vs, some v => some (vs ++ [v])
    | _, _ => none

/-- Assembly of `GL_TRIANGLES`: consecutive triples of vertices. -/
def assembleTriangles : List (Vec2 K) → List (Vec2 K × Vec2 K × Vec2 K)
  | a :: b :: c :: rest => (a, b, c) :: assembleTriangles rest
  | _ => []

end Mesh

/-- The positions (attribute 0: two floats, stride 4, offset 0) of the six
vertices `glDrawArrays(GL_TRIANGLES, 0, 6)` reads from `vertices`. -/
def meshPositions : Option (List (Vec2 F32)) := readAttribs vertices 4 0 0 6

/-- The mesh positions as points of the rational plane. -/
def meshPoints : List (Vec2 ℚ) :=
  (meshPositions.getD []).map (fun v => ⟨v.x.toRat, v.y.toRat⟩)

/-- The edge function of the directed edge `a b` at `p`: positive on the left
of the edge, zero on it. -/
def edgeFn (a b p : Vec2 ℚ) : ℚ :=
  (b.x - a.x) * (p.y - a.y) - (b.y - a.y) * (p.x - a.x)

/-- Whether `p` lies in the closed triangle `a b c`, of either winding: the three
edge functions do not disagree in sign. -/
def inTriangle (t : Vec2 ℚ × Vec2 ℚ × Vec2 ℚ) (p : Vec2 ℚ) : Bool :=
  (decide (0 ≤ edgeFn t.1 t.2.1 p) && decide (0 ≤ edgeFn t.2.1 t.2.2 p) &&
      decide (0 ≤ edgeFn t.2.2 t.1 p)) ||
    (decide (edgeFn t.1 t.2.1 p ≤ 0) && decide (edgeFn t.2.1 t.2.2 p ≤ 0) &&
      decide (edgeFn t.2.2 t.1 p ≤ 0))

/-- Whether `p` lies in one of the triangles of the mesh. -/
def inMesh (p : Vec2 ℚ) : Bool :=
  (assembleTriangles meshPoints).any (fun t => inTriangle t p)

/-! ## The matrices and transforms the specification names -/

/-- Spec side: the homogeneous translation by `(tx, ty, tz)`. -/
def Translate (tx ty tz : F32) : Mat4 F32 :=
  ⟨⟨1, 0, 0, 0⟩, ⟨0, 1, 0, 0⟩, ⟨0, 0, 1, 0⟩, ⟨tx, ty, tz, 1⟩⟩

/-- Spec side: the rotation about the Z axis by `angle` (radians),
counter-clockwise for a true cosine and sine. -/
def RotateZ (ops : MathFns F32) (angle : F32) : Mat4 F32 :=
  ⟨⟨ops.cos angle, ops.sin angle, 0, 0⟩, ⟨-ops.sin angle, ops.cos angle, 0, 0⟩,
   ⟨0, 0, 1, 0⟩, ⟨0, 0, 0, 1⟩⟩

/-- Spec side: the scaling by `(sx, sy, sz)`. -/
def Scale (sx sy sz : F32) : Mat4 F32 :=
  ⟨⟨sx, 0, 0, 0⟩, ⟨0, sy, 0, 0⟩, ⟨0, 0, sz, 0⟩, ⟨0, 0, 0, 1⟩⟩

/-- Spec side: the model matrix of a sprite,
`Translate(position) · Rotate(radians(rotation), Z) · Scale(scale.x, scale.y, 1)`,
the two matrix products taken as GLM takes them, in binary32. -/
def modelSpec (ops : MathFns F32) (S : Sprite F32) : Mat4 F32 :=
  ((Translate S.position.x S.position.y 0).mul (RotateZ ops (glm.radians S.rotation))).mul
    (Scale S.scale.x S.scale.y 1)

/-- Spec side: where the specification sends the mesh-local point `(x, y)`:
position + Rot(rotation) · (scale.x · x, scale.y · y), in exact arithmetic on
the values the sprite holds. -/
def transformSpec (ops : MathFns F32) (S : Sprite F32) (x y : ℚ) : Vec4 ℚ :=
  let c := (ops.cos (glm.radians S.rotation)).toRat
  let s := (ops.sin (glm.radians S.rotation)).toRat
  ⟨S.position.x.toRat + (c * (S.scale.x.toRat * x) - s * (S.scale.y.toRat * y)),
   S.position.y.toRat + (s * (S.scale.x.toRat * x) + c * (S.scale.y.toRat * y)), 0, 1⟩

/-- The rationals a vector of finite floats stands for. -/
def Vec4.toRat (v : Vec4 F32) : Vec4 ℚ := ⟨v.x.toRat, v.y.toRat, v.z.toRat, v.w.toRat⟩

/-- The matrix applied to a rational vector in exact arithmetic: the linear map
the stored entries stand for, with no rounding. -/
def Mat4.applyExact (m : Mat4 F32) (v : Vec4 ℚ) : Vec4 ℚ :=
  ⟨m.c0.x.toRat * v.x + m.c1.x.toRat * v.y + m.c2.x.toRat * v.z + m.c3.x.toRat * v.w,
   m.c0.y.toRat * v.x + m.c1.y.toRat * v.y + m.c2.y.toRat * v.z + m.c3.y.toRat * v.w,
   m.c0.z.toRat * v.x + m.c1.z.toRat * v.y + m.c2.z.toRat * v.z + m.c3.z.toRat * v.w,
   m.c0.w.toRat * v.x + m.c1.w.toRat * v.y + m.c2.w.toRat * v.z + m.c3.w.toRat * v.w⟩

/-- Modelled from the spec: the vertex shader `shaders/vertex_shader.glsl` is
not among the sources. The spec transforms a mesh position by the model and the
projection: `projection * model * vec4(position, 0.0, 1.0)`, evaluated left to
right as GLSL does, in binary32. -/
def clipPos (projection model : Mat4 F32) (p : Vec2 F32) : Vec4 F32 :=
  (projection.mul model).mulVec ⟨p.x, p.y, 0.0, 1.0⟩

/-- The closed form of the matrix `Sprite::draw` builds, by columns, with
`c` and `s` the cosine and sine of `radians(rotation)`. -/
def modelOf (ops : MathFns F32) (S : Sprite F32) : Mat4 F32 :=
  let c := ops.cos (glm.radians S.rotation)
  let s := ops.sin (glm.radians S.rotation)
  ⟨⟨c * S.scale.x, s * S.scale.x, 0, 0⟩,
   ⟨-s * S.scale.y, c * S.scale.y, 0, 0⟩,
   ⟨0, 0, c + (1 - c), 0⟩,
   ⟨S.position.x, S.position.y, 0, 1⟩⟩

/-! ## What the frame's calls do to the OpenGL state

Only the calls a frame makes are given a meaning. Whatever set-up fixed
(texture contents, the mesh, the shader program, blending) does not change
during the loop and is part of the `Renderer`. -/

section Machine

/-- What one `glDrawArrays` reads from the state the frame changes: the active
program, its `model` and `projection` uniforms, the bound texture and vertex
array, and the arguments of the call. -/
structure DrawInput (K : Type) where
  program : Nat
  model : Option (Mat4 K)
  projection : Option (Mat4 K)
  texture : Nat
  vertexArray : Nat
  mode : GLenum
  first : Nat
  count : Nat
  deriving DecidableEq

/-- Modelled from the spec: the GPU pipeline (rasteriser, the two shaders,
blending) is not among the sources. A renderer says how a draw and a clear
change a framebuffer of type `F`. -/
structure Renderer (K F : Type) where
  draw : DrawInput K → F → F
  clear : K × K × K × K → F → F

/-- The OpenGL state the frame's calls read and write. -/
structure GLState (K F : Type) where
  program : Nat
  uniform : Nat → String → Option (Mat4 K)
  texture2D : Nat
  vertexArray : Nat
  clearColor : K × K × K × K
  framebuffer : F

variable {K F : Type}

/-- Modelled from the spec: `Shader.h` and the OpenGL implementation are not
among the sources. `use` activates the program, `setMat4` stores a named
matrix uniform of the shader, the bind calls set the binding, `glClear`
clears to the clear colour, `glDrawArrays` renders from the current state;
presenting and polling leave the state as it is. Other calls: `none`. -/
def exec (R : Renderer K F) (c : Call K) (g : GLState K F) : Option (GLState K F) :=
  match c with
  | Call.shaderUse p => some { g with program := p }
  | Call.shaderSetMat4 p n v =>
    some { g with uniform := fun q m => if q = p ∧ m = n then some v else g.uniform q m }
  | Call.glBindTexture GLenum.TEXTURE_2D t => some { g with texture2D := t }
  | Call.glBindVertexArray a => some { g with vertexArray := a }
  | Call.glDrawArrays mode first count =>
    let d : DrawInput K :=
      { program := g.program, model := g.uniform g.program "model",
        projection := g.uniform g.program "projection", texture := g.texture2D,
        vertexArray := g.vertexArray, mode := mode, first := first, count := count }
    some { g with framebuffer := R.draw d g.framebuffer }
  | Call.glClearColor r gr b a => some { g with clearColor := (r, gr, b, a) }
  | Call.glClear GLenum.COLOR_BUFFER_BIT =>
    some { g with framebuffer := R.clear g.clearColor g.framebuffer }
  | Call.glfwSwapBuffers _ => some g
  | Call.glfwPollEvents => some g
  | _ => none

/-- Runs a list of calls in order; `none` when one of them has no meaning. -/
def run (R : Renderer K F) : List (Call K) → GLState K F → Option (GLState K F)
  | [], g => some g
  | c :: rest, g =>
    match exec R c g with
    | some g1 => run R rest g1
    | none => none

/-- What the `glDrawArrays` of `S.draw(P)` reads. -/
def Sprite.drawInput (ops : MathFns F32) (S : Sprite F32) (P : Mat4 F32) : DrawInput F32 :=
  { program := S.shader, model := some (S.drawModel ops), projection := some P,
    texture := S.textureID, vertexArray := S.VAO, mode := GLenum.TRIANGLES,
    first := 0, count := 6 }

/-- The state after the calls of `S.draw(P)` ran from `g`. -/
def Sprite.drawn (R : Renderer F32 F) (ops : MathFns F32) (S : Sprite F32) (P : Mat4 F32)
    (g : GLState F32 F) : GLState F32 F :=
  { program := S.shader
    uniform := fun q m =>
      if q = S.shader ∧ m = "projection" then some P
      else if q = S.shader ∧ m = "model" then some (S.drawModel ops)
      else g.uniform q m
    texture2D := S.textureID
    vertexArray := 0
    clearColor := g.clearColor
    framebuffer := R.draw (S.drawInput ops P) g.framebuffer }

/-- Modelled from the spec: the painter's model, with no depth test. The
framebuffer holds, per pixel, the textures painted there, bottom to top; a
draw adds its texture on top of every pixel it covers, a clear empties all.
Which pixels a draw covers is the parameter `covers`. -/
def painter {X : Type} (covers : DrawInput K → X → Bool) : Renderer K (X → List Nat) where
  draw d fb := fun px => if covers d px then fb px ++ [d.texture] else fb px
  clear _ _ := fun _ => []

/-! ## What the calls do to the texture objects -/

/-- The level-0 image of a texture object, as `glTexImage2D` stores it. -/
structure TexImage where
  internalformat : GLenum
  width : Int
  height : Int
  format : GLenum
  type : GLenum
  pixels : List Nat
  deriving DecidableEq, Repr

/-- The texture state: the name bound to `GL_TEXTURE_2D` and the level-0 image
of every texture name (`none`: no image was ever specified). -/
structure TexState where
  bound : Nat
  image : Nat → Option TexImage

/-- The texture state when the program starts: nothing bound, no image. -/
def TexState.init : TexState := ⟨0, fun _ => none⟩

/-- Modelled from the spec: the OpenGL implementation is not among the
sources. `glBindTexture` makes a name current and `glTexImage2D` at level 0
replaces the image of the current texture; no other call of the program changes
a level-0 image. -/
def texExec (c : Call K) (t : TexState) : TexState :=
  match c with
  | Call.glBindTexture GLenum.TEXTURE_2D n => { t with bound := n }
  | Call.glTexImage2D GLenum.TEXTURE_2D 0 i w h _ f ty px =>
    { t with image := fun n => if n = t.bound then some ⟨i, w, h, f, ty, px⟩ else t.image n }
  | _ => t

/-- The texture state after a list of calls, in order. -/
def texRun : List (Call K) → TexState → TexState
  | [], t => t
  | c :: rest, t => texRun rest (texExec c t)

/-- The image `loadTexture` specifies for a decoded file. -/
def Image.uploaded (img : Image) : TexImage :=
  { internalformat := if img.nrChannels = 4 then GLenum.RGBA else GLenum.RGB
    width := img.width
    height := img.height
    format := if img.nrChannels = 4 then GLenum.RGBA else GLenum.RGB
    type := GLenum.UNSIGNED_BYTE
    pixels := img.data }

end Machine

/-! ## Concrete inputs -/

/-- The values of `cosf`, `sinf` and `sqrtf`, rounded to nearest, at the
arguments used below: 0, the floats nearest pi / 4 and pi / 2 (which are
`radians(45)` and `radians(90)`), and 1 for the root. A NaN stands for every
other argument; none is used. -/
def libm : MathFns F32 where
  cos x :=
    if x = F32.fin 0 then F32.fin 1
    else if x = F32.fin (13176795 / 16777216) then F32.fin (11863283 / 16777216)
    else if x = F32.fin (13176795 / 8388608) then F32.fin (-6151831 / 140737488355328)
    else F32.nan
  sin x :=
    if x = F32.fin 0 then F32.fin 0
    else if x = F32.fin (13176795 / 16777216) then F32.fin (11863283 / 16777216)
    else if x = F32.fin (13176795 / 8388608) then F32.fin 1
    else F32.nan
  sqrt x := if x = F32.fin 1 then F32.fin 1 else F32.nan

/-- A sprite at the origin with scale 1, turned by 90 degrees. -/
def quarterTurn : Sprite F32 :=
  { VAO := 1, textureID := 7, position := ⟨0, 0⟩, scale := ⟨1, 1⟩, rotation := 90,
    shader := 3 }

/-- A sprite at the origin with scale 3, turned by 45 degrees. -/
def eighthTurn : Sprite F32 :=
  { VAO := 1, textureID := 7, position := ⟨0, 0⟩, scale := ⟨3, 3⟩, rotation := 45,
    shader := 3 }

/-- A sprite with scale 1 and no rotation, 2^25 pixels to the right. -/
def farSprite : Sprite F32 :=
  { VAO := 1, textureID := 7, position := ⟨33554432, 0⟩, scale := ⟨1, 1⟩, rotation := 0,
    shader := 3 }

/-- A sprite with every field set, turned by 45 degrees. -/
def sampleSprite : Sprite F32 :=
  { VAO := 1, textureID := 7, position := ⟨150, 100⟩, scale := ⟨128, 64⟩, rotation := 45,
    shader := 3 }

/-- A decoder that knows one 2 × 1 image of three channels under `textures/tree.png`
and nothing else. -/
def sampleDecoder : String → Option Image := fun path =>
  if path = "textures/tree.png" then some ⟨2, 1, 3, [255, 0, 0, 0, 255, 0]⟩ else none

/-- The library results of a sample run. -/
def sampleEnv : Env :=
  { window := 9, stbi_load := sampleDecoder, texName := fun i => i.val + 1, vaoName := 1,
    vboName := 1, shader := 3 }

/-! ## Lemmas on rounding -/

namespace F32

theorem natLog2_spec (fuel n : Nat) (hn : n ≠ 0) (hf : n ≤ fuel) :
    2 ^ natLog2 fuel n ≤ n ∧ n < 2 ^ (natLog2 fuel n + 1) := by
  induction fuel generalizing n with
  | zero => omega
  | succ fuel ih =>
    unfold natLog2
    split_ifs with h
    · constructor <;> omega
    · have h2 : n / 2 ≠ 0 := by omega
      have := ih (n / 2) h2 (by omega)
      rw [pow_succ, pow_succ]
      constructor <;> omega

theorem ilog2_spec (q : ℚ) (hq : 0 < q) :
    (2 : ℚ) ^ ilog2 q ≤ q ∧ q < (2 : ℚ) ^ (ilog2 q + 1) := by
  have hnum : 0 < q.num := Rat.num_pos.mpr hq
  have hn0 : q.num.natAbs ≠ 0 := by omega
  obtain ⟨ha1, ha2⟩ := natLog2_spec q.num.natAbs q.num.natAbs hn0 le_rfl
  obtain ⟨hb1, hb2⟩ := natLog2_spec q.den q.den q.den_nz le_rfl
  set a := natLog2 q.num.natAbs q.num.natAbs
  set b := natLog2 q.den q.den
  have hq' : q = (q.num.natAbs : ℚ) / (q.den : ℚ) := by
    have h1 : ((q.num.natAbs : ℤ) : ℚ) = (q.num : ℚ) := by
      rw [Int.natAbs_of_nonneg hnum.le]
    have h2 : ((q.num.natAbs : ℕ) : ℚ) = ((q.num.natAbs : ℤ) : ℚ) := (Int.cast_natCast _).symm
    rw [h2, h1, Rat.num_div_den]
  have hd : (0 : ℚ) < q.den := by exact_mod_cast q.den_pos
  have ha1' : (2 : ℚ) ^ (a : ℤ) ≤ q.num.natAbs := by
    rw [zpow_natCast]; exact_mod_cast ha1
  have ha2' : (q.num.natAbs : ℚ) < (2 : ℚ) ^ ((a : ℤ) + 1) := by
    have : ((a : ℤ) + 1) = ((a + 1 : ℕ) : ℤ) := by push_cast; ring
    rw [this, zpow_natCast]; exact_mod_cast ha2
  have hb1' : (2 : ℚ) ^ (b : ℤ) ≤ q.den := by
    rw [zpow_natCast]; exact_mod_cast hb1
  have hb2' : (q.den : ℚ) < (2 : ℚ) ^ ((b : ℤ) + 1) := by
    have : ((b : ℤ) + 1) = ((b + 1 : ℕ) : ℤ) := by push_cast; ring
    rw [this, zpow_natCast]; exact_mod_cast hb2
  have two_pos : ∀ k : ℤ, (0 : ℚ) < 2 ^ k := fun k => zpow_pos (by norm_num) k
  -- bounds on q
  have hlow : (2 : ℚ) ^ ((a : ℤ) - b - 1) < q := by
    rw [hq', lt_div_iff₀ hd]
    have e1 : (2 : ℚ) ^ ((a : ℤ) - b - 1) * 2 ^ ((b : ℤ) + 1) = 2 ^ (a : ℤ) := by
      rw [← zpow_add₀ (by norm_num : (2 : ℚ) ≠ 0)]; congr 1; ring
    calc (2 : ℚ) ^ ((a : ℤ) - b - 1) * q.den
        < (2 : ℚ) ^ ((a : ℤ) - b - 1) * 2 ^ ((b : ℤ) + 1) :=
          mul_lt_mul_of_pos_left hb2' (two_pos _)
      _ = 2 ^ (a : ℤ) := e1
      _ ≤ q.num.natAbs := ha1'
  have hhigh : q < (2 : ℚ) ^ ((a : ℤ) - b + 1) := by
    rw [hq', div_lt_iff₀ hd]
    have e1 : (2 : ℚ) ^ ((a : ℤ) - b + 1) * 2 ^ (b : ℤ) = 2 ^ ((a : ℤ) + 1) := by
      rw [← zpow_add₀ (by norm_num : (2 : ℚ) ≠ 0)]; congr 1; ring
    calc (q.num.natAbs : ℚ) < 2 ^ ((a : ℤ) + 1) := ha2'
      _ = (2 : ℚ) ^ ((a : ℤ) - b + 1) * 2 ^ (b : ℤ) := e1.symm
      _ ≤ (2 : ℚ) ^ ((a : ℤ) - b + 1) * q.den :=
          mul_le_mul_of_nonneg_left hb1' (two_pos _).le
  show (2 : ℚ) ^ ilog2 q ≤ q ∧ q < (2 : ℚ) ^ (ilog2 q + 1)
  unfold ilog2
  simp only
  split_ifs with h
  · refine ⟨hlow.le, ?_⟩
    have : ((a : ℤ) - b - 1 + 1) = (a : ℤ) - b := by ring
    rw [this]; exact h
  · exact ⟨not_lt.mp h, hhigh⟩


theorem two_zpow_pos (k : ℤ) : (0 : ℚ) < 2 ^ k := zpow_pos (by norm_num) k

theorem ilog2_lt_of_lt {q : ℚ} (hq : 0 < q) {k : ℤ} (h : q < 2 ^ k) : ilog2 q < k :=
  (zpow_lt_zpow_iff_right₀ (by norm_num : (1 : ℚ) < 2)).mp (lt_of_le_of_lt (ilog2_spec q hq).1 h)

theorem le_ilog2_of_le {q : ℚ} (hq : 0 < q) {k : ℤ} (h : 2 ^ k ≤ q) : k ≤ ilog2 q := by
  have := (zpow_lt_zpow_iff_right₀ (by norm_num : (1 : ℚ) < 2)).mp
    (lt_of_le_of_lt h (ilog2_spec q hq).2)
  omega

theorem ilog2_mono {q r : ℚ} (hq : 0 < q) (h : q ≤ r) : ilog2 q ≤ ilog2 r :=
  le_ilog2_of_le (lt_of_lt_of_le hq h) (le_trans (ilog2_spec q hq).1 h)

theorem ulpExp_mono {q r : ℚ} (hq : 0 < q) (h : q ≤ r) : ulpExp q ≤ ulpExp r := by
  have := ilog2_mono hq h
  unfold ulpExp
  omega

theorem roundHalfEven_intCast (n : ℤ) : roundHalfEven (n : ℚ) = n := by
  simp [roundHalfEven]

theorem le_roundHalfEven {a : ℤ} {t : ℚ} (h : (a : ℚ) ≤ t) : a ≤ roundHalfEven t := by
  have : a ≤ ⌊t⌋ := Int.le_floor.mpr h
  unfold roundHalfEven
  split_ifs <;> omega

theorem roundHalfEven_le {b : ℤ} {t : ℚ} (h : t ≤ (b : ℚ)) : roundHalfEven t ≤ b := by
  have hf : ⌊t⌋ ≤ b := by
    have : ((⌊t⌋ : ℤ) : ℚ) ≤ b := le_trans (Int.floor_le t) h
    exact_mod_cast this
  have hlt : 0 < t - ⌊t⌋ → ⌊t⌋ + 1 ≤ b := by
    intro hpos
    have : ((⌊t⌋ : ℤ) : ℚ) < b := by linarith
    have : ⌊t⌋ < b := by exact_mod_cast this
    omega
  unfold roundHalfEven
  split_ifs with h1 h2 h3
  · exact hf
  · exact hlt (by linarith)
  · exact hf
  · exact hlt (by linarith)

theorem roundMag_eq_self_iff {q : ℚ} :
    roundMag q = q ↔ ∃ n : ℤ, q / 2 ^ ulpExp q = n := by
  have hp := two_zpow_pos (ulpExp q)
  constructor
  · intro h
    refine ⟨roundHalfEven (q / 2 ^ ulpExp q), ?_⟩
    rw [div_eq_iff hp.ne']
    exact h.symm
  · rintro ⟨n, hn⟩
    unfold roundMag
    rw [hn, roundHalfEven_intCast, ← hn, div_mul_cancel₀ _ hp.ne']

theorem roundMag_le_of_le {q F : ℚ} (hq : 0 < q) (h : q ≤ F) (hF : roundMag F = F) :
    roundMag q ≤ F := by
  obtain ⟨n, hn⟩ := roundMag_eq_self_iff.mp hF
  have hu := ulpExp_mono hq h
  have hp := two_zpow_pos (ulpExp q)
  obtain ⟨k, hk⟩ := Int.eq_ofNat_of_zero_le (sub_nonneg.mpr hu)
  have hFq : F / 2 ^ ulpExp q = ((n * 2 ^ k : ℤ) : ℚ) := by
    have h1 : F = n * 2 ^ ulpExp F := by
      rw [← hn, div_mul_cancel₀ _ (two_zpow_pos _).ne']
    have h2 : ulpExp F = ulpExp q + (k : ℤ) := by omega
    rw [h1, h2, zpow_add₀ (by norm_num : (2 : ℚ) ≠ 0), zpow_natCast]
    push_cast
    field_simp
    ring
  have hle : roundHalfEven (q / 2 ^ ulpExp q) ≤ n * 2 ^ k := by
    apply roundHalfEven_le
    rw [← hFq]
    exact div_le_div_of_nonneg_right h hp.le
  unfold roundMag
  calc (roundHalfEven (q / 2 ^ ulpExp q) : ℚ) * 2 ^ ulpExp q
      ≤ ((n * 2 ^ k : ℤ) : ℚ) * 2 ^ ulpExp q :=
        mul_le_mul_of_nonneg_right (by exact_mod_cast hle) hp.le
    _ = F := by rw [← hFq, div_mul_cancel₀ _ hp.ne']

theorem roundMag_nonneg {q : ℚ} (hq : 0 ≤ q) : 0 ≤ roundMag q := by
  unfold roundMag
  apply mul_nonneg _ (two_zpow_pos _).le
  have : (0 : ℤ) ≤ roundHalfEven (q / 2 ^ ulpExp q) :=
    le_roundHalfEven (by simpa using div_nonneg hq (two_zpow_pos _).le)
  exact_mod_cast this

theorem roundMag_roundMag {q : ℚ} (hq : 0 < q) : roundMag (roundMag q) = roundMag q := by
  rcases (roundMag_nonneg hq.le).eq_or_lt with h0 | hy
  · rw [← h0]
    simp [roundMag, roundHalfEven]
  set u := ulpExp q with hu
  set m := roundHalfEven (q / 2 ^ u) with hm
  have hp := two_zpow_pos u
  have hy' : roundMag q = m * 2 ^ u := rfl
  have hu1 : ilog2 q - 23 ≤ u := le_max_left _ _
  have hu2 : (-149 : ℤ) ≤ u := le_max_right _ _
  -- the scaled value is below 2^24
  have ht : q / 2 ^ u ≤ ((2 ^ 24 : ℤ) : ℚ) := by
    rw [div_le_iff₀ hp]
    have h1 : q < 2 ^ (ilog2 q + 1) := (ilog2_spec q hq).2
    have h2 : (2 : ℚ) ^ (ilog2 q + 1) ≤ 2 ^ (24 + u) :=
      (zpow_le_zpow_iff_right₀ (by norm_num : (1 : ℚ) < 2)).mpr (by omega)
    have h3 : (2 : ℚ) ^ (24 + u) = ((2 ^ 24 : ℤ) : ℚ) * 2 ^ u := by
      rw [zpow_add₀ (by norm_num : (2 : ℚ) ≠ 0)]; norm_num
    linarith
  have hm24 : m ≤ 2 ^ 24 := roundHalfEven_le ht
  have hmpos : 0 < m := by
    have : (0 : ℚ) < m * 2 ^ u := hy' ▸ hy
    have : (0 : ℚ) < m := pos_of_mul_pos_left this hp.le
    exact_mod_cast this
  rw [roundMag_eq_self_iff, hy']
  rcases hm24.eq_or_lt with he | hl
  · -- rounded up to the next power of two
    have hval : (m : ℚ) * 2 ^ u = 2 ^ (u + 24) := by
      rw [he, zpow_add₀ (by norm_num : (2 : ℚ) ≠ 0)]; norm_num; ring
    have hlog : ilog2 ((m : ℚ) * 2 ^ u) = u + 24 := by
      have hpos : (0 : ℚ) < (m : ℚ) * 2 ^ u := hy' ▸ hy
      have h1 := le_ilog2_of_le hpos (le_of_eq hval.symm)
      have h2 := ilog2_lt_of_lt hpos (k := u + 24 + 1) (by
        rw [hval]; exact (zpow_lt_zpow_iff_right₀ (by norm_num : (1 : ℚ) < 2)).mpr (by omega))
      omega
    have hue : ulpExp ((m : ℚ) * 2 ^ u) = u + 1 := by
      unfold ulpExp; rw [hlog]; omega
    refine ⟨2 ^ 23, ?_⟩
    rw [hue, hval, div_eq_iff (two_zpow_pos _).ne']
    have h3 : u + 24 = 23 + (u + 1) := by ring
    rw [h3, zpow_add₀ (by norm_num : (2 : ℚ) ≠ 0)]
    norm_num
  · have hpos : (0 : ℚ) < (m : ℚ) * 2 ^ u := hy' ▸ hy
    have hlt : (m : ℚ) * 2 ^ u < 2 ^ (u + 24) := by
      rw [zpow_add₀ (by norm_num : (2 : ℚ) ≠ 0), mul_comm ((2 : ℚ) ^ u)]
      apply mul_lt_mul_of_pos_right _ hp
      have h1 : (m : ℚ) < ((2 ^ 24 : ℤ) : ℚ) := by exact_mod_cast hl
      have h24 : (2 : ℚ) ^ (24 : ℤ) = ((2 ^ 24 : ℤ) : ℚ) := by norm_num
      rw [h24]
      exact h1
    have hlog := ilog2_lt_of_lt hpos hlt
    have hue : ulpExp ((m : ℚ) * 2 ^ u) ≤ u := by
      unfold ulpExp; omega
    obtain ⟨k, hk⟩ := Int.eq_ofNat_of_zero_le (sub_nonneg.mpr hue)
    refine ⟨m * 2 ^ k, ?_⟩
    have h2 : u = ulpExp ((m : ℚ) * 2 ^ u) + (k : ℤ) := by omega
    rw [div_eq_iff (two_zpow_pos _).ne']
    conv_lhs => rw [h2]
    rw [zpow_add₀ (by norm_num : (2 : ℚ) ≠ 0), zpow_natCast]
    push_cast
    ring


theorem rne_zero : rne 0 = fin 0 := by simp [rne]

theorem rne_neg (q : ℚ) : rne (-q) = neg (rne q) := by
  unfold rne
  by_cases h0 : q = 0
  · simp [h0, neg]
  · have h0' : -q ≠ 0 := neg_ne_zero.mpr h0
    simp only [h0, h0', if_false, abs_neg]
    rcases lt_or_gt_of_ne h0 with hneg | hpos
    · have h1 : ¬ (-q < 0) := by linarith [neg_pos.mpr hneg]
      split_ifs <;> simp [neg, hneg, h1]
    · have h1 : -q < 0 := by linarith
      have h2 : ¬ q < 0 := by linarith
      split_ifs <;> simp [neg, h1, h2]

theorem rne_eq_fin_iff {q : ℚ} :
    rne q = fin q ↔ q = 0 ∨ (roundMag |q| = |q| ∧ |q| < 2 ^ (128 : ℤ)) := by
  unfold rne
  by_cases h0 : q = 0
  · simp [h0]
  · simp only [h0, if_false, false_or]
    by_cases hov : (2 : ℚ) ^ (128 : ℤ) ≤ roundMag |q|
    · simp only [hov, if_true]
      constructor
      · intro h; cases h
      · rintro ⟨h1, h2⟩; rw [h1] at hov; exact absurd h2 (not_lt.mpr hov)
    · simp only [hov, if_false, fin.injEq]
      rcases lt_or_gt_of_ne h0 with hneg | hpos
      · simp only [hneg, if_true, abs_of_neg hneg] at hov ⊢
        constructor
        · intro h
          have h3 : roundMag (-q) = -q := by linarith
          exact ⟨h3, by rw [← h3]; exact not_le.mp hov⟩
        · rintro ⟨h1, -⟩; linarith
      · have hn : ¬ q < 0 := by linarith
        simp only [hn, if_false, abs_of_pos hpos] at hov ⊢
        constructor
        · intro h; exact ⟨h, by rw [← h]; exact not_le.mp hov⟩
        · rintro ⟨h1, -⟩; exact h1

theorem rne_of_abs_le {q F : ℚ} (hF : rne F = fin F) (h : |q| ≤ |F|) :
    ∃ r : ℚ, rne q = fin r ∧ rne r = fin r ∧ |r| ≤ |F| := by
  by_cases h0 : q = 0
  · exact ⟨0, by rw [h0, rne_zero], rne_zero, by simp⟩
  have hqpos : 0 < |q| := abs_pos.mpr h0
  have hFpos : 0 < |F| := lt_of_lt_of_le hqpos h
  have hF0 : F ≠ 0 := abs_pos.mp hFpos
  obtain ⟨hFfix, hFlt⟩ := (rne_eq_fin_iff.mp hF).resolve_left hF0
  have hle : roundMag |q| ≤ |F| := roundMag_le_of_le hqpos h hFfix
  have hnov : ¬ (2 : ℚ) ^ (128 : ℤ) ≤ roundMag |q| := not_le.mpr (lt_of_le_of_lt hle hFlt)
  have hy0 : 0 ≤ roundMag |q| := roundMag_nonneg hqpos.le
  have hidem : roundMag (roundMag |q|) = roundMag |q| := roundMag_roundMag hqpos
  have key : ∀ r : ℚ, |r| = roundMag |q| → rne r = fin r := by
    intro r hr
    rw [rne_eq_fin_iff]
    by_cases hr0 : r = 0
    · exact Or.inl hr0
    · right
      rw [hr]
      exact ⟨hidem, lt_of_le_of_lt hle hFlt⟩
  by_cases hneg : q < 0
  · refine ⟨-roundMag |q|, by simp [rne, h0, hnov, hneg], key _ ?_, ?_⟩
    · rw [abs_neg, abs_of_nonneg hy0]
    · rw [abs_neg, abs_of_nonneg hy0]; exact hle
  · refine ⟨roundMag |q|, by simp [rne, h0, hnov, hneg], key _ ?_, ?_⟩
    · rw [abs_of_nonneg hy0]
    · rw [abs_of_nonneg hy0]; exact hle

theorem rne_rne {q r : ℚ} (h : rne q = fin r) : rne r = fin r := by
  by_cases h0 : q = 0
  · rw [h0, rne_zero] at h; cases h; exact rne_zero
  have hqpos : 0 < |q| := abs_pos.mpr h0
  have hy0 : 0 ≤ roundMag |q| := roundMag_nonneg hqpos.le
  have hidem : roundMag (roundMag |q|) = roundMag |q| := roundMag_roundMag hqpos
  unfold rne at h
  simp only [h0, if_false] at h
  split_ifs at h with hov hneg
  · cases h
    rw [rne_eq_fin_iff]
    by_cases hr0 : -roundMag |q| = 0
    · exact Or.inl hr0
    · right; rw [abs_neg, abs_of_nonneg hy0]; exact ⟨hidem, not_le.mp hov⟩
  · cases h
    rw [rne_eq_fin_iff]
    by_cases hr0 : roundMag |q| = 0
    · exact Or.inl hr0
    · right; rw [abs_of_nonneg hy0]; exact ⟨hidem, not_le.mp hov⟩


theorem roundHalfEven_error (t : ℚ) : |(roundHalfEven t : ℚ) - t| ≤ 1 / 2 := by
  have h1 : (⌊t⌋ : ℚ) ≤ t := Int.floor_le t
  have h2 : t < ⌊t⌋ + 1 := Int.lt_floor_add_one t
  unfold roundHalfEven
  split_ifs with a b c <;> push_cast <;> rw [abs_le] <;> constructor <;> linarith

theorem roundMag_error (q : ℚ) : |roundMag q - q| ≤ 2 ^ ulpExp q / 2 := by
  have hp := two_zpow_pos (ulpExp q)
  have h := roundHalfEven_error (q / 2 ^ ulpExp q)
  have e : roundMag q - q =
      ((roundHalfEven (q / 2 ^ ulpExp q) : ℚ) - q / 2 ^ ulpExp q) * 2 ^ ulpExp q := by
    unfold roundMag
    field_simp
  rw [e, abs_mul, abs_of_pos hp]
  calc |(roundHalfEven (q / 2 ^ ulpExp q) : ℚ) - q / 2 ^ ulpExp q| * 2 ^ ulpExp q
      ≤ 1 / 2 * 2 ^ ulpExp q := mul_le_mul_of_nonneg_right h hp.le
    _ = 2 ^ ulpExp q / 2 := by ring

theorem rne_examples :
    rne (1 / 10) = fin (13421773 / 134217728) ∧
    rne (1 / 3) = fin (11184811 / 33554432) ∧
    rne 16777217 = fin 16777216 ∧
    rne 16777219 = fin 16777220 ∧
    rne (2 ^ 128 - 2 ^ 104) = fin (2 ^ 128 - 2 ^ 104) ∧
    rne (2 ^ 128 - 2 ^ 103) = inf false ∧
    rne (-(2 ^ 128 - 2 ^ 103)) = inf true ∧
    rne (3 / 2 ^ 150) = fin (2 / 2 ^ 149) ∧
    rne (1 / 2 ^ 150) = fin 0 := by
  decide!

theorem rne_one : rne 1 = fin 1 := by decide!

theorem ofNat_zero : (0 : F32) = fin 0 := by decide!

theorem ofNat_one : (1 : F32) = fin 1 := by decide!

theorem ofScientific_zero : (0.0 : F32) = fin 0 := by decide!

theorem ofScientific_one : (1.0 : F32) = fin 1 := by decide!

theorem fin_add_fin (a b : ℚ) : fin a + fin b = rne (a + b) := rfl

theorem fin_sub_fin (a b : ℚ) : fin a - fin b = rne (a + -b) := rfl

theorem fin_mul_fin (a b : ℚ) : fin a * fin b = rne (a * b) := rfl

theorem neg_fin (a : ℚ) : -fin a = fin (-a) := rfl

theorem fin_div_fin (a : ℚ) {b : ℚ} (hb : b ≠ 0) : fin a / fin b = rne (a / b) := by
  show div (fin a) (fin b) = rne (a / b)
  simp [div, hb]

theorem isFinite_iff {x : F32} : x.IsFinite ↔ ∃ q, x = fin q ∧ rne q = fin q := by
  cases x <;> simp [IsFinite]

theorem inUnitRange_iff {x : F32} :
    x.InUnitRange ↔ ∃ q, x = fin q ∧ rne q = fin q ∧ |q| ≤ 1 := by
  cases x <;> simp [InUnitRange]

end F32

/-! ## Lemmas on the model matrix -/

theorem normalize_z (ops : MathFns F32) (h : ops.sqrt 1 = 1) :
    glm.normalize ops (⟨0, 0, 1⟩ : Vec3 F32) = ⟨0, 0, 1⟩ := by
  have h1 : ops.sqrt (F32.fin 1) = F32.fin 1 := by simpa [F32.ofNat_one] using h
  simp [glm.normalize, glm.inversesqrt, glm.dot, Vec3.mulS, F32.ofNat_zero, F32.ofNat_one,
    F32.fin_mul_fin, F32.fin_add_fin, F32.rne_zero, F32.rne_one, h1, F32.fin_div_fin]

theorem drawModel_eq (ops : MathFns F32) (h : ops.sqrt 1 = 1) (S : Sprite F32)
    (hpx : S.position.x.IsFinite) (hpy : S.position.y.IsFinite)
    (hsx : S.scale.x.IsFinite) (hsy : S.scale.y.IsFinite)
    (hc : (ops.cos (glm.radians S.rotation)).InUnitRange)
    (hs : (ops.sin (glm.radians S.rotation)).InUnitRange) :
    S.drawModel ops = modelOf ops S := by
  obtain ⟨px, epx, rpx⟩ := F32.isFinite_iff.mp hpx
  obtain ⟨py, epy, rpy⟩ := F32.isFinite_iff.mp hpy
  obtain ⟨sx, esx, rsx⟩ := F32.isFinite_iff.mp hsx
  obtain ⟨sy, esy, rsy⟩ := F32.isFinite_iff.mp hsy
  obtain ⟨c, ec, rc, lc⟩ := F32.inUnitRange_iff.mp hc
  obtain ⟨s, es, rs, ls⟩ := F32.inUnitRange_iff.mp hs
  have r2 : F32.rne 2 = F32.fin 2 := by decide!
  have r4 : F32.rne 4 = F32.fin 4 := by decide!
  have rns : F32.rne (-s) = F32.fin (-s) := by rw [F32.rne_neg, rs]; rfl
  obtain ⟨d, ed, rd, ld⟩ := F32.rne_of_abs_le (q := 1 + -c) r2 (by
    rw [abs_le] at lc; rw [abs_le, abs_of_pos (by norm_num : (0 : ℚ) < 2)]
    constructor <;> linarith)
  obtain ⟨e, ee, re, le⟩ := F32.rne_of_abs_le (q := c + d) r4 (by
    rw [abs_le] at lc ld; rw [abs_le, abs_of_pos (by norm_num : (0 : ℚ) < 4)]
    rw [abs_of_pos (by norm_num : (0 : ℚ) < 2)] at ld
    constructor <;> linarith)
  simp only [Sprite.drawModel, modelOf, glm.rotate, normalize_z ops h, ec, es]
  simp [glm.translate, glm.scale, Mat4.diag, Vec3.ofVec2, Vec3.smul, Vec4.add, Vec4.mulS,
    epx, epy, esx, esy, F32.ofNat_zero, F32.ofNat_one, F32.ofScientific_zero,
    F32.ofScientific_one, F32.fin_mul_fin, F32.fin_add_fin, F32.fin_sub_fin, F32.neg_fin,
    F32.rne_zero, F32.rne_one, rpx, rpy, rsx, rsy, rc, rs, rns, ed, rd, ee, re]

theorem modelSpec_eq (ops : MathFns F32) (S : Sprite F32)
    (hpx : S.position.x.IsFinite) (hpy : S.position.y.IsFinite)
    (hsx : S.scale.x.IsFinite) (hsy : S.scale.y.IsFinite)
    (hc : (ops.cos (glm.radians S.rotation)).InUnitRange)
    (hs : (ops.sin (glm.radians S.rotation)).InUnitRange) :
    modelSpec ops S = { modelOf ops S with c2 := ⟨0, 0, 1, 0⟩ } := by
  obtain ⟨px, epx, rpx⟩ := F32.isFinite_iff.mp hpx
  obtain ⟨py, epy, rpy⟩ := F32.isFinite_iff.mp hpy
  obtain ⟨sx, esx, rsx⟩ := F32.isFinite_iff.mp hsx
  obtain ⟨sy, esy, rsy⟩ := F32.isFinite_iff.mp hsy
  obtain ⟨c, ec, rc, lc⟩ := F32.inUnitRange_iff.mp hc
  obtain ⟨s, es, rs, ls⟩ := F32.inUnitRange_iff.mp hs
  have rns : F32.rne (-s) = F32.fin (-s) := by rw [F32.rne_neg, rs]; rfl
  have bound : ∀ a b : ℚ, |a| ≤ 1 → |a * b| ≤ |b| := fun a b ha => by
    rw [abs_mul]; exact mul_le_of_le_one_left (abs_nonneg b) ha
  obtain ⟨p1, e1, r1, -⟩ := F32.rne_of_abs_le (q := c * sx) rsx (bound c sx lc)
  obtain ⟨p2, e2, r2, -⟩ := F32.rne_of_abs_le (q := s * sx) rsx (bound s sx ls)
  obtain ⟨p3, e3, r3, -⟩ := F32.rne_of_abs_le (q := -(s * sy)) rsy (by
    rw [abs_neg]; exact bound s sy ls)
  obtain ⟨p4, e4, r4, -⟩ := F32.rne_of_abs_le (q := c * sy) rsy (bound c sy lc)
  simp only [modelSpec, modelOf, RotateZ, ec, es]
  simp [Translate, Scale, Mat4.mul, Vec4.add, Vec4.mulS,
    epx, epy, esx, esy, F32.ofNat_zero, F32.ofNat_one, F32.fin_mul_fin, F32.fin_add_fin,
    F32.neg_fin, F32.rne_zero, F32.rne_one, rpx, rpy, rsx, rsy, rc, rs, rns,
    e1, r1, e2, r2, e3, r3, e4, r4]

theorem modelOf_mulVec (ops : MathFns F32) (S : Sprite F32)
    (hpx : S.position.x.IsFinite) (hpy : S.position.y.IsFinite)
    (hc : (ops.cos (glm.radians S.rotation)).InUnitRange)
    (x y : F32) (hx : x.IsFinite) (hy : y.IsFinite) :
    (modelOf ops S).mulVec ⟨x, y, 0, 1⟩ =
      ⟨ops.cos (glm.radians S.rotation) * S.scale.x * x +
          -ops.sin (glm.radians S.rotation) * S.scale.y * y + S.position.x,
       ops.sin (glm.radians S.rotation) * S.scale.x * x +
          ops.cos (glm.radians S.rotation) * S.scale.y * y + S.position.y, 0, 1⟩ := by
  obtain ⟨px, epx, rpx⟩ := F32.isFinite_iff.mp hpx
  obtain ⟨py, epy, rpy⟩ := F32.isFinite_iff.mp hpy
  obtain ⟨qx, ex, rx⟩ := F32.isFinite_iff.mp hx
  obtain ⟨qy, ey, ry⟩ := F32.isFinite_iff.mp hy
  obtain ⟨c, ec, rc, lc⟩ := F32.inUnitRange_iff.mp hc
  have r2 : F32.rne 2 = F32.fin 2 := by decide!
  have r4 : F32.rne 4 = F32.fin 4 := by decide!
  obtain ⟨d, ed, rd, ld⟩ := F32.rne_of_abs_le (q := 1 + -c) r2 (by
    rw [abs_le] at lc; rw [abs_le, abs_of_pos (by norm_num : (0 : ℚ) < 2)]
    constructor <;> linarith)
  obtain ⟨e, ee, re, le⟩ := F32.rne_of_abs_le (q := c + d) r4 (by
    rw [abs_le] at lc ld; rw [abs_le, abs_of_pos (by norm_num : (0 : ℚ) < 4)]
    rw [abs_of_pos (by norm_num : (0 : ℚ) < 2)] at ld
    constructor <;> linarith)
  simp only [modelOf, ec]
  simp [Mat4.mulVec, Vec4.add, Vec4.mulS, epx, epy, ex, ey, F32.ofNat_zero, F32.ofNat_one,
    F32.fin_mul_fin, F32.fin_add_fin, F32.fin_sub_fin, F32.rne_zero, F32.rne_one, rpx, rpy,
    ed, rd, ee, re]

theorem rne_add_zero (q : ℚ) : F32.rne q + F32.fin 0 = F32.rne q := by
  cases h : F32.rne q with
  | fin r => rw [F32.fin_add_fin, add_zero, F32.rne_rne h]
  | inf b => rfl
  | nan => rfl

theorem zero_add_rne (q : ℚ) : F32.fin 0 + F32.rne q = F32.rne q := by
  cases h : F32.rne q with
  | fin r => rw [F32.fin_add_fin, zero_add, F32.rne_rne h]
  | inf b => rfl
  | nan => rfl

theorem modelOf_mulVec_centre (ops : MathFns F32) (S : Sprite F32)
    (hpx : S.position.x.IsFinite) (hpy : S.position.y.IsFinite)
    (hsx : S.scale.x.IsFinite) (hsy : S.scale.y.IsFinite)
    (hc : (ops.cos (glm.radians S.rotation)).InUnitRange)
    (hs : (ops.sin (glm.radians S.rotation)).InUnitRange) :
    (modelOf ops S).mulVec ⟨0, 0, 0, 1⟩ = ⟨S.position.x, S.position.y, 0, 1⟩ := by
  obtain ⟨px, epx, rpx⟩ := F32.isFinite_iff.mp hpx
  obtain ⟨py, epy, rpy⟩ := F32.isFinite_iff.mp hpy
  obtain ⟨sx, esx, rsx⟩ := F32.isFinite_iff.mp hsx
  obtain ⟨sy, esy, rsy⟩ := F32.isFinite_iff.mp hsy
  obtain ⟨c, ec, rc, lc⟩ := F32.inUnitRange_iff.mp hc
  obtain ⟨s, es, rs, ls⟩ := F32.inUnitRange_iff.mp hs
  have r2 : F32.rne 2 = F32.fin 2 := by decide!
  have r4 : F32.rne 4 = F32.fin 4 := by decide!
  obtain ⟨d, ed, rd, ld⟩ := F32.rne_of_abs_le (q := 1 + -c) r2 (by
    rw [abs_le] at lc; rw [abs_le, abs_of_pos (by norm_num : (0 : ℚ) < 2)]
    constructor <;> linarith)
  obtain ⟨e, ee, re, le⟩ := F32.rne_of_abs_le (q := c + d) r4 (by
    rw [abs_le] at lc ld; rw [abs_le, abs_of_pos (by norm_num : (0 : ℚ) < 4)]
    rw [abs_of_pos (by norm_num : (0 : ℚ) < 2)] at ld
    constructor <;> linarith)
  have bound : ∀ a b : ℚ, |a| ≤ 1 → |a * b| ≤ |b| := fun a b ha => by
    rw [abs_mul]; exact mul_le_of_le_one_left (abs_nonneg b) ha
  obtain ⟨p1, e1, r1, -⟩ := F32.rne_of_abs_le (q := c * sx) rsx (bound c sx lc)
  obtain ⟨p2, e2, r2, -⟩ := F32.rne_of_abs_le (q := s * sx) rsx (bound s sx ls)
  obtain ⟨p3, e3, r3, -⟩ := F32.rne_of_abs_le (q := -(s * sy)) rsy (by
    rw [abs_neg]; exact bound s sy ls)
  obtain ⟨p4, e4, r4, -⟩ := F32.rne_of_abs_le (q := c * sy) rsy (bound c sy lc)
  simp only [modelOf, ec, es]
  simp [Mat4.mulVec, Vec4.add, Vec4.mulS, epx, epy, esx, esy, F32.ofNat_zero, F32.ofNat_one,
    F32.fin_mul_fin, F32.fin_add_fin, F32.fin_sub_fin, F32.neg_fin, F32.rne_zero,
    F32.rne_one, rpx, rpy, ed, rd, ee, re, e1, r1, e2, r2, e3, r3, e4, r4]

theorem radians_zero : glm.radians 0 = 0 := by decide!

theorem modelOf_unrotated (ops : MathFns F32) (S : Sprite F32)
    (hsx : S.scale.x.IsFinite) (hsy : S.scale.y.IsFinite)
    (hr : S.rotation = 0) (hc : ops.cos 0 = 1) (hs : ops.sin 0 = 0) :
    modelOf ops S =
      ⟨⟨S.scale.x, 0, 0, 0⟩, ⟨0, S.scale.y, 0, 0⟩, ⟨0, 0, 1, 0⟩,
       ⟨S.position.x, S.position.y, 0, 1⟩⟩ := by
  obtain ⟨sx, esx, rsx⟩ := F32.isFinite_iff.mp hsx
  obtain ⟨sy, esy, rsy⟩ := F32.isFinite_iff.mp hsy
  simp only [modelOf, hr, radians_zero, hc, hs]
  simp [esx, esy, F32.ofNat_zero, F32.ofNat_one, F32.fin_mul_fin, F32.fin_add_fin,
    F32.fin_sub_fin, F32.neg_fin, F32.rne_zero, F32.rne_one, rsx, rsy]

theorem unrotated_mulVec (sx sy px py x y : F32) (hsx : sx.IsFinite) (hsy : sy.IsFinite)
    (hpx : px.IsFinite) (hpy : py.IsFinite) (hx : x.IsFinite) (hy : y.IsFinite) :
    (⟨⟨sx, 0, 0, 0⟩, ⟨0, sy, 0, 0⟩, ⟨0, 0, 1, 0⟩, ⟨px, py, 0, 1⟩⟩ : Mat4 F32).mulVec
        ⟨x, y, 0, 1⟩ = ⟨sx * x + px, sy * y + py, 0, 1⟩ := by
  obtain ⟨qsx, esx, rsx⟩ := F32.isFinite_iff.mp hsx
  obtain ⟨qsy, esy, rsy⟩ := F32.isFinite_iff.mp hsy
  obtain ⟨qpx, epx, rpx⟩ := F32.isFinite_iff.mp hpx
  obtain ⟨qpy, epy, rpy⟩ := F32.isFinite_iff.mp hpy
  obtain ⟨qx, ex, rx⟩ := F32.isFinite_iff.mp hx
  obtain ⟨qy, ey, ry⟩ := F32.isFinite_iff.mp hy
  simp [Mat4.mulVec, Vec4.add, Vec4.mulS, esx, esy, epx, epy, ex, ey, F32.ofNat_zero,
    F32.ofNat_one, F32.fin_mul_fin, F32.fin_add_fin, F32.rne_zero, F32.rne_one, rpx, rpy,
    rne_add_zero, zero_add_rne]

/-! ## Claims about the model matrix -/

theorem uniformUploads_append {K : Type} (name : String) (s t : List (Call K)) :
    uniformUploads name (s ++ t) = uniformUploads name s ++ uniformUploads name t := by
  induction s with
  | nil => rfl
  | cons c s ih =>
    cases c <;> simp [uniformUploads, ih]
    split <;> simp

theorem uniformUploads_draw (ops : MathFns F32) (S : Sprite F32) (P : Mat4 F32) :
    uniformUploads "model" (S.draw ops P).2 = [S.drawModel ops] := by
  simp [Sprite.draw, uniformUploads]

/-- C1, as the claim states it, fails: for the sprite turned by 90 degrees the
matrix uploaded as `model` has 16777215 / 16777216 in row 2, column 2, where
Translate · Rotate · Scale has 1; every other entry agrees. The cosine of
`radians(90)` is a float of size 4.4e-8, `1 - c` rounds to 1 and `c + 1` rounds
to the float below 1. -/
theorem draw_model_matrix_differs_at_quarter_turn :
    libm.sqrt 1 = 1 ∧
    glm.radians quarterTurn.rotation = F32.fin (13176795 / 8388608) ∧
    uniformUploads "model" (quarterTurn.draw libm projection).2 =
      [quarterTurn.drawModel libm] ∧
    (quarterTurn.drawModel libm).c2.z = F32.fin (16777215 / 16777216) ∧
    (modelSpec libm quarterTurn).c2.z = 1 ∧
    quarterTurn.drawModel libm =
      { modelSpec libm quarterTurn with c2 := ⟨0, 0, F32.fin (16777215 / 16777216), 0⟩ } ∧
    uniformUploads "model" (quarterTurn.draw libm projection).2 ≠
      [modelSpec libm quarterTurn] := by
  decide!

/-- C1 as amended: for a sprite whose position and scale are finite floats,
with the cosine `c` and sine of `radians(rotation)` finite floats in [-1, 1]
and the square root of 1 equal to 1, the only matrix `Sprite::draw` uploads
under `model` is Translate · Rotate · Scale, the products taken in binary32,
except in row 2, column 2, which holds `c + (1 - c)` rounded; the entries of
Translate · Rotate · Scale are the rounded products of cosine, sine and scale,
and the position. The upload does not depend on the projection: sprites with
the same position, scale and rotation upload the same matrix, and in a frame
the four uploads are, in draw order, the matrices of the four sprites. -/
theorem draw_uploads_model_matrix (ops : MathFns F32) (h : ops.sqrt 1 = 1) (S : Sprite F32)
    (P : Mat4 F32)
    (hpx : S.position.x.IsFinite) (hpy : S.position.y.IsFinite)
    (hsx : S.scale.x.IsFinite) (hsy : S.scale.y.IsFinite)
    (hc : (ops.cos (glm.radians S.rotation)).InUnitRange)
    (hs : (ops.sin (glm.radians S.rotation)).InUnitRange) :
    uniformUploads "model" (S.draw ops P).2 =
      [{ modelSpec ops S with
          c2 := ⟨0, 0, ops.cos (glm.radians S.rotation) +
                  (1 - ops.cos (glm.radians S.rotation)), 0⟩ }] ∧
    modelSpec ops S =
      ⟨⟨ops.cos (glm.radians S.rotation) * S.scale.x,
        ops.sin (glm.radians S.rotation) * S.scale.x, 0, 0⟩,
       ⟨-ops.sin (glm.radians S.rotation) * S.scale.y,
        ops.cos (glm.radians S.rotation) * S.scale.y, 0, 0⟩,
       ⟨0, 0, 1, 0⟩,
       ⟨S.position.x, S.position.y, 0, 1⟩⟩ ∧
    (∀ (T : Sprite F32) (Q : Mat4 F32),
      T.position = S.position → T.scale = S.scale → T.rotation = S.rotation →
        uniformUploads "model" (T.draw ops Q).2 = uniformUploads "model" (S.draw ops P).2) ∧
    ∀ sc : Scene,
      uniformUploads "model" (frame ops sc).2 =
        [sc.background.drawModel ops, sc.tree.drawModel ops, sc.dragon.drawModel ops,
         sc.character.drawModel ops] := by
  refine ⟨?_, ?_, fun T Q hp hsc hr => ?_, fun sc => ?_⟩
  · rw [uniformUploads_draw, drawModel_eq ops h S hpx hpy hsx hsy hc hs,
      modelSpec_eq ops S hpx hpy hsx hsy hc hs]
    rfl
  · rw [modelSpec_eq ops S hpx hpy hsx hsy hc hs]
    rfl
  · simp [uniformUploads_draw, Sprite.drawModel, hp, hsc, hr]
  · simp [frame, uniformUploads_append, uniformUploads_draw, uniformUploads]

/-- C1 as amended, at a sprite turned by 45 degrees. -/
theorem draw_uploads_model_matrix_witness :
    (libm.sqrt 1 = 1 ∧
      sampleSprite.position.x.IsFinite ∧ sampleSprite.position.y.IsFinite ∧
      sampleSprite.scale.x.IsFinite ∧ sampleSprite.scale.y.IsFinite ∧
      (libm.cos (glm.radians sampleSprite.rotation)).InUnitRange ∧
      (libm.sin (glm.radians sampleSprite.rotation)).InUnitRange) ∧
    uniformUploads "model" (sampleSprite.draw libm projection).2 =
      [{ modelSpec libm sampleSprite with
          c2 := ⟨0, 0, libm.cos (glm.radians sampleSprite.rotation) +
                  (1 - libm.cos (glm.radians sampleSprite.rotation)), 0⟩ }] :=
  ⟨by decide!,
   (draw_uploads_model_matrix libm (by decide!) sampleSprite projection (by decide!)
      (by decide!) (by decide!) (by decide!) (by decide!) (by decide!)).1⟩

/-! ## Claims about the transform of mesh points -/

/-- C9, as the claim states it, fails. For the sprite with scale 3 turned by 45
degrees the model matrix sends (1, 0, 0, 1) to x = 4448731 / 2097152, the
rounded product of cosine and scale, where position + Rot · (scale · (x, y)) is
35589849 / 16777216. For the unrotated sprite of scale 1 at x = 2^25 both
corners x = 0.5 and x = -0.5 go to x = 2^25: the image of the quad has width 0,
not scale.x. -/
theorem model_transform_differs_from_exact_formula :
    (eighthTurn.drawModel libm).mulVec ⟨1, 0, 0, 1⟩ =
      ⟨F32.fin (4448731 / 2097152), F32.fin (4448731 / 2097152), 0, 1⟩ ∧
    transformSpec libm eighthTurn 1 0 = ⟨35589849 / 16777216, 35589849 / 16777216, 0, 1⟩ ∧
    ((eighthTurn.drawModel libm).mulVec ⟨1, 0, 0, 1⟩).toRat ≠ transformSpec libm eighthTurn 1 0 ∧
    (eighthTurn.drawModel libm).applyExact ⟨1, 0, 0, 1⟩ ≠ transformSpec libm eighthTurn 1 0 ∧
    (farSprite.drawModel libm).mulVec ⟨0.5, 0.5, 0, 1⟩ = ⟨33554432, 0.5, 0, 1⟩ ∧
    (farSprite.drawModel libm).mulVec ⟨-0.5, 0.5, 0, 1⟩ = ⟨33554432, 0.5, 0, 1⟩ := by
  decide!

/-- C9 as amended: for a sprite whose position and scale are finite floats,
with the cosine `c` and sine `s` of `radians(rotation)` finite floats in
[-1, 1] and the square root of 1 equal to 1, the model matrix sends a finite
point (x, y, 0, 1) to ((c·sx)·x + (-s·sy)·y + px, (s·sx)·x + (c·sy)·y + py, 0, 1),
every product and sum rounded to binary32, the scale folded into the matrix
entries before the point is multiplied; it sends the quad centre (0, 0) to the
position exactly; and with rotation 0 (cosine 1 and sine 0 there) the matrix is
diag(sx, sy, 1, 1) with the position as last column and sends (x, y, 0, 1) to
(sx·x + px, sy·y + py, 0, 1), products and sums rounded. -/
theorem drawModel_scale_rotate_translate (ops : MathFns F32) (h : ops.sqrt 1 = 1)
    (S : Sprite F32)
    (hpx : S.position.x.IsFinite) (hpy : S.position.y.IsFinite)
    (hsx : S.scale.x.IsFinite) (hsy : S.scale.y.IsFinite)
    (hc : (ops.cos (glm.radians S.rotation)).InUnitRange)
    (hs : (ops.sin (glm.radians S.rotation)).InUnitRange) :
    (∀ x y : F32, x.IsFinite → y.IsFinite →
      (S.drawModel ops).mulVec ⟨x, y, 0, 1⟩ =
        ⟨ops.cos (glm.radians S.rotation) * S.scale.x * x +
            -ops.sin (glm.radians S.rotation) * S.scale.y * y + S.position.x,
         ops.sin (glm.radians S.rotation) * S.scale.x * x +
            ops.cos (glm.radians S.rotation) * S.scale.y * y + S.position.y, 0, 1⟩) ∧
    (S.drawModel ops).mulVec ⟨0, 0, 0, 1⟩ = ⟨S.position.x, S.position.y, 0, 1⟩ ∧
    (S.rotation = 0 → ops.cos 0 = 1 → ops.sin 0 = 0 →
      S.drawModel ops =
        ⟨⟨S.scale.x, 0, 0, 0⟩, ⟨0, S.scale.y, 0, 0⟩, ⟨0, 0, 1, 0⟩,
         ⟨S.position.x, S.position.y, 0, 1⟩⟩ ∧
      ∀ x y : F32, x.IsFinite → y.IsFinite →
        (S.drawModel ops).mulVec ⟨x, y, 0, 1⟩ =
          ⟨S.scale.x * x + S.position.x, S.scale.y * y + S.position.y, 0, 1⟩) := by
  rw [drawModel_eq ops h S hpx hpy hsx hsy hc hs]
  refine ⟨fun x y hx hy => modelOf_mulVec ops S hpx hpy hc x y hx hy,
    modelOf_mulVec_centre ops S hpx hpy hsx hsy hc hs, fun hr h0c h0s => ?_⟩
  rw [modelOf_unrotated ops S hsx hsy hr h0c h0s]
  exact ⟨rfl, fun x y hx hy => unrotated_mulVec _ _ _ _ x y hsx hsy hpx hpy hx hy⟩

/-- C9 as amended, at a sprite turned by 45 degrees (a corner and the centre)
and at the unrotated tree sprite of `main` (a corner). -/
theorem drawModel_scale_rotate_translate_witness :
    (libm.sqrt 1 = 1 ∧
      sampleSprite.position.x.IsFinite ∧ sampleSprite.position.y.IsFinite ∧
      sampleSprite.scale.x.IsFinite ∧ sampleSprite.scale.y.IsFinite ∧
      (libm.cos (glm.radians sampleSprite.rotation)).InUnitRange ∧
      (libm.sin (glm.radians sampleSprite.rotation)).InUnitRange) ∧
    (sampleSprite.drawModel libm).mulVec ⟨0.5, 0.5, 0, 1⟩ =
      ⟨libm.cos (glm.radians sampleSprite.rotation) * sampleSprite.scale.x * 0.5 +
          -libm.sin (glm.radians sampleSprite.rotation) * sampleSprite.scale.y * 0.5 +
          sampleSprite.position.x,
       libm.sin (glm.radians sampleSprite.rotation) * sampleSprite.scale.x * 0.5 +
          libm.cos (glm.radians sampleSprite.rotation) * sampleSprite.scale.y * 0.5 +
          sampleSprite.position.y, 0, 1⟩ ∧
    (sampleSprite.drawModel libm).mulVec ⟨0, 0, 0, 1⟩ = ⟨150, 100, 0, 1⟩ ∧
    ((setup sampleEnv).1.tree.drawModel libm).mulVec ⟨0.5, 0.5, 0, 1⟩ =
      ⟨128 * 0.5 + 150, 128 * 0.5 + 100, 0, 1⟩ := by
  have T := drawModel_scale_rotate_translate libm (by decide!) sampleSprite (by decide!)
    (by decide!) (by decide!) (by decide!) (by decide!) (by decide!)
  have U := drawModel_scale_rotate_translate libm (by decide!) (setup sampleEnv).1.tree
    (by decide!) (by decide!) (by decide!) (by decide!) (by decide!) (by decide!)
  exact ⟨by decide!, T.1 0.5 0.5 (by decide!) (by decide!), T.2.1,
    (U.2.2 (by decide!) (by decide!) (by decide!)).2 0.5 0.5 (by decide!) (by decide!)⟩

/-! ## Claims about the projection and the viewport -/

theorem meshPositions_eq :
    meshPositions =
      some [⟨-0.5, -0.5⟩, ⟨0.5, -0.5⟩, ⟨0.5, 0.5⟩, ⟨0.5, 0.5⟩, ⟨-0.5, 0.5⟩, ⟨-0.5, -0.5⟩] := by
  decide!

theorem meshPoints_eq :
    meshPoints =
      [⟨-(1 / 2), -(1 / 2)⟩, ⟨1 / 2, -(1 / 2)⟩, ⟨1 / 2, 1 / 2⟩,
       ⟨1 / 2, 1 / 2⟩, ⟨-(1 / 2), 1 / 2⟩, ⟨-(1 / 2), -(1 / 2)⟩] := by
  decide!

theorem inMesh_iff (p : Vec2 ℚ) :
    inMesh p = true ↔ (-(1 / 2) ≤ p.x ∧ p.x ≤ 1 / 2) ∧ (-(1 / 2) ≤ p.y ∧ p.y ≤ 1 / 2) := by
  rw [inMesh, meshPoints_eq]
  simp only [assembleTriangles, List.any_cons, List.any_nil,
    inTriangle, edgeFn, Bool.or_false, Bool.or_eq_true, Bool.and_eq_true, decide_eq_true_eq]
  constructor
  · rintro ((⟨⟨h1, h2⟩, h3⟩ | ⟨⟨h1, h2⟩, h3⟩) | (⟨⟨h1, h2⟩, h3⟩ | ⟨⟨h1, h2⟩, h3⟩)) <;>
      refine ⟨⟨?_, ?_⟩, ?_, ?_⟩ <;> linarith
  · rintro ⟨⟨h1, h2⟩, h3, h4⟩
    rcases le_total p.y p.x with h | h
    · left; left
      refine ⟨⟨?_, ?_⟩, ?_⟩ <;> linarith
    · right; left
      refine ⟨⟨?_, ?_⟩, ?_⟩ <;> linarith

/-- C8, as the claim states it, fails: under the identity model and the
projection, the first mesh vertex goes to x = -4199547 / 4194304 and
y = -8402589 / 8388608; the claim's -1 - 1/800 and -1 - 1/600 are no binary32
values, and the stored matrix applied as a linear map does not give them
either. -/
theorem mesh_ndc_not_exact :
    clipPos projection (Mat4.diag 1) ⟨-0.5, -0.5⟩ =
      ⟨F32.fin (-4199547 / 4194304), F32.fin (-8402589 / 8388608), 0, 1⟩ ∧
    (clipPos projection (Mat4.diag 1) ⟨-0.5, -0.5⟩).toRat ≠
      ⟨-1 - 1 / 800, -1 - 1 / 600, 0, 1⟩ ∧
    F32.rne (-1 - 1 / 800) ≠ F32.fin (-1 - 1 / 800) ∧
    F32.rne (-1 - 1 / 600) ≠ F32.fin (-1 - 1 / 600) ∧
    projection.applyExact ((Mat4.diag 1).applyExact ⟨-(1 / 2), -(1 / 2), 0, 1⟩) ≠
      ⟨-1 - 1 / 800, -1 - 1 / 600, 0, 1⟩ := by
  decide!

/-- C8 as amended: the vertex buffer holds 24 floats, which the attribute
layout reads as exactly six positions (a seventh lies past the end), forming
two triangles; every position is a corner (±0.5, ±0.5) and the two triangles
cover exactly the square [-0.5, 0.5]²; under the identity model and the
projection of `main`, evaluated in binary32, the vertices go to
x = -4199547 / 4194304 or -4189061 / 4194304 and y = -8402589 / 8388608 or
-8374627 / 8388608, at depth 0, each within 2^-24 of -1 ± 1/800 and
-1 ± 1/600. -/
theorem mesh_unit_quad_and_ndc :
    vertices.length = 24 ∧
    meshPositions =
      some [⟨-0.5, -0.5⟩, ⟨0.5, -0.5⟩, ⟨0.5, 0.5⟩, ⟨0.5, 0.5⟩, ⟨-0.5, 0.5⟩, ⟨-0.5, -0.5⟩] ∧
    readAttribs vertices 4 0 0 7 = none ∧
    (assembleTriangles meshPoints).length = 2 ∧
    (∀ v ∈ meshPoints, (v.x = -(1 / 2) ∨ v.x = 1 / 2) ∧ (v.y = -(1 / 2) ∨ v.y = 1 / 2)) ∧
    (∀ p : Vec2 ℚ,
      inMesh p = true ↔ (-(1 / 2) ≤ p.x ∧ p.x ≤ 1 / 2) ∧ (-(1 / 2) ≤ p.y ∧ p.y ≤ 1 / 2)) ∧
    meshPositions.map (List.map (clipPos projection (Mat4.diag 1))) =
      some [⟨F32.fin (-4199547 / 4194304), F32.fin (-8402589 / 8388608), 0, 1⟩,
            ⟨F32.fin (-4189061 / 4194304), F32.fin (-8402589 / 8388608), 0, 1⟩,
            ⟨F32.fin (-4189061 / 4194304), F32.fin (-8374627 / 8388608), 0, 1⟩,
            ⟨F32.fin (-4189061 / 4194304), F32.fin (-8374627 / 8388608), 0, 1⟩,
            ⟨F32.fin (-4199547 / 4194304), F32.fin (-8374627 / 8388608), 0, 1⟩,
            ⟨F32.fin (-4199547 / 4194304), F32.fin (-8402589 / 8388608), 0, 1⟩] ∧
    (|(-4199547 / 4194304 : ℚ) - (-1 - 1 / 800)| ≤ 1 / 2 ^ 24 ∧
      |(-4189061 / 4194304 : ℚ) - (-1 + 1 / 800)| ≤ 1 / 2 ^ 24 ∧
      |(-8402589 / 8388608 : ℚ) - (-1 - 1 / 600)| ≤ 1 / 2 ^ 24 ∧
      |(-8374627 / 8388608 : ℚ) - (-1 + 1 / 600)| ≤ 1 / 2 ^ 24) := by
  refine ⟨rfl, meshPositions_eq, by decide!, by rw [meshPoints_eq]; rfl, ?_, inMesh_iff,
    by decide!, by decide!⟩
  rw [meshPoints_eq]
  simp

/-! ## Claims about loadTexture -/

section TextureClaims

variable {K : Type}

/-- C4: for a decoded image of width W, height H and 3 or 4 channels,
`loadTexture` uploads the pixels with width W, height H and the format RGB (3
channels) or RGBA (4 channels), the same value as internal and as pixel format,
then generates mipmaps, and returns the generated name. -/
theorem loadTexture_uploads_decoded_image (stbi_load : String → Option Image) (name : Nat)
    (path : String) (img : Image) (hd : stbi_load path = some img) :
    ∃ format : GLenum,
      (img.nrChannels = 3 → format = GLenum.RGB) ∧
      (img.nrChannels = 4 → format = GLenum.RGBA) ∧
      (loadTexture stbi_load name path : Nat × List (Call K)) =
        (name,
          [ Call.glGenTextures 1 name,
            Call.glBindTexture GLenum.TEXTURE_2D name,
            Call.glTexParameteri GLenum.TEXTURE_2D GLenum.TEXTURE_WRAP_S GLenum.CLAMP_TO_EDGE,
            Call.glTexParameteri GLenum.TEXTURE_2D GLenum.TEXTURE_WRAP_T GLenum.CLAMP_TO_EDGE,
            Call.glTexParameteri GLenum.TEXTURE_2D GLenum.TEXTURE_MIN_FILTER GLenum.LINEAR,
            Call.glTexParameteri GLenum.TEXTURE_2D GLenum.TEXTURE_MAG_FILTER GLenum.LINEAR,
            Call.glTexImage2D GLenum.TEXTURE_2D 0 format img.width img.height 0 format
              GLenum.UNSIGNED_BYTE img.data,
            Call.glGenerateMipmap GLenum.TEXTURE_2D,
            Call.stbi_image_free (some img.data) ]) ∧
      textureWrites (loadTexture stbi_load name path : Nat × List (Call K)).2 =
        [ Call.glTexImage2D GLenum.TEXTURE_2D 0 format img.width img.height 0 format
            GLenum.UNSIGNED_BYTE img.data,
          Call.glGenerateMipmap GLenum.TEXTURE_2D ] := by
  refine ⟨if img.nrChannels = 4 then GLenum.RGBA else GLenum.RGB, ?_, ?_, ?_, ?_⟩
  · intro h; simp [h]
  · intro h; simp [h]
  · simp [loadTexture, hd]
  · simp [loadTexture, hd, textureWrites]

/-- C4 at the sample decoder: the 2 × 1 image of three channels is uploaded as
RGB. -/
theorem loadTexture_uploads_decoded_image_witness :
    sampleDecoder "textures/tree.png" = some ⟨2, 1, 3, [255, 0, 0, 0, 255, 0]⟩ ∧
    textureWrites (loadTexture sampleDecoder 5 "textures/tree.png" : Nat × List (Call ℚ)).2 =
      [ Call.glTexImage2D GLenum.TEXTURE_2D 0 GLenum.RGB 2 1 0 GLenum.RGB
          GLenum.UNSIGNED_BYTE [255, 0, 0, 0, 255, 0],
        Call.glGenerateMipmap GLenum.TEXTURE_2D ] := by
  have hd : sampleDecoder "textures/tree.png" = some ⟨2, 1, 3, [255, 0, 0, 0, 255, 0]⟩ := by
    simp [sampleDecoder]
  obtain ⟨f, h3, -, -, hw⟩ :=
    loadTexture_uploads_decoded_image (K := ℚ) sampleDecoder 5 "textures/tree.png" _ hd
  have hf : f = GLenum.RGB := h3 rfl
  subst hf
  exact ⟨hd, hw⟩

/-- C5, as the claim states it, fails: at the same generated name 5, the load of
a path that does not decode and the load of a path that decodes return the same
value, and the failing load makes no upload; so no test on the returned value
tells a failed load from a successful one. -/
theorem loadTexture_failure_indistinguishable :
    sampleDecoder "textures/missing.png" = none ∧
    sampleDecoder "textures/tree.png" ≠ none ∧
    (loadTexture sampleDecoder 5 "textures/missing.png" : Nat × List (Call ℚ)).1 =
      (loadTexture sampleDecoder 5 "textures/tree.png" : Nat × List (Call ℚ)).1 ∧
    textureWrites (loadTexture sampleDecoder 5 "textures/missing.png" : Nat × List (Call ℚ)).2
      = [] ∧
    ¬ ∃ isFailure : Nat → Bool,
        ∀ (decoder : String → Option Image) (name : Nat) (path : String),
          isFailure (loadTexture decoder name path : Nat × List (Call ℚ)).1 =
            (decoder path).isNone := by
  refine ⟨by simp [sampleDecoder], by simp [sampleDecoder], ?_, ?_, ?_⟩
  · simp [loadTexture, sampleDecoder]
  · simp [loadTexture, sampleDecoder, textureWrites]
  · rintro ⟨f, hf⟩
    have h1 := hf sampleDecoder 5 "textures/missing.png"
    have h2 := hf sampleDecoder 5 "textures/tree.png"
    simp [loadTexture, sampleDecoder] at h1 h2
    rw [h1] at h2
    exact Bool.noConfusion h2

/-- C5 as amended: for a path that does not decode, `loadTexture` returns (it is
a total function), writes the line "Failed to load texture: " followed by the
path to standard output, makes no upload and no mipmap generation, and returns
the generated texture name, the value it also returns when decoding succeeds. -/
theorem loadTexture_failure_logs_and_returns_name (stbi_load : String → Option Image)
    (name : Nat) (path : String) (hd : stbi_load path = none) :
    (loadTexture stbi_load name path : Nat × List (Call K)) =
      (name,
        [ Call.glGenTextures 1 name,
          Call.glBindTexture GLenum.TEXTURE_2D name,
          Call.glTexParameteri GLenum.TEXTURE_2D GLenum.TEXTURE_WRAP_S GLenum.CLAMP_TO_EDGE,
          Call.glTexParameteri GLenum.TEXTURE_2D GLenum.TEXTURE_WRAP_T GLenum.CLAMP_TO_EDGE,
          Call.glTexParameteri GLenum.TEXTURE_2D GLenum.TEXTURE_MIN_FILTER GLenum.LINEAR,
          Call.glTexParameteri GLenum.TEXTURE_2D GLenum.TEXTURE_MAG_FILTER GLenum.LINEAR,
          Call.cout ("Failed to load texture: " ++ path),
          Call.stbi_image_free none ]) ∧
    coutLines (loadTexture stbi_load name path : Nat × List (Call K)).2 =
      ["Failed to load texture: " ++ path] ∧
    textureWrites (loadTexture stbi_load name path : Nat × List (Call K)).2 = [] ∧
    ∀ (decoder : String → Option Image) (img : Image), decoder path = some img →
      (loadTexture decoder name path : Nat × List (Call K)).1 =
        (loadTexture stbi_load name path : Nat × List (Call K)).1 := by
  refine ⟨?_, ?_, ?_, fun decoder img hi => ?_⟩
  · simp [loadTexture, hd]
  · simp [loadTexture, hd, coutLines]
  · simp [loadTexture, hd, textureWrites]
  · simp [loadTexture, hd, hi]

/-- C5 as amended, at the sample decoder and a missing file. -/
theorem loadTexture_failure_logs_and_returns_name_witness :
    sampleDecoder "textures/missing.png" = none ∧
    coutLines (loadTexture sampleDecoder 5 "textures/missing.png" : Nat × List (Call ℚ)).2 =
      ["Failed to load texture: textures/missing.png"] ∧
    (loadTexture sampleDecoder 5 "textures/missing.png" : Nat × List (Call ℚ)).1 = 5 := by
  have hd : sampleDecoder "textures/missing.png" = none := by simp [sampleDecoder]
  have T := loadTexture_failure_logs_and_returns_name (K := ℚ) sampleDecoder 5
    "textures/missing.png" hd
  exact ⟨hd, T.2.1, congrArg Prod.fst T.1⟩

/-- C10: for every decoded image `loadTexture` uploads and generates mipmaps,
whatever the channel count, with no diagnostic line; the format is RGBA exactly
when the channel count is 4 and RGB otherwise; and with a channel count other
than 4 the result and the calls are those of the same image with 3 channels. -/
theorem loadTexture_format_by_channel_count (stbi_load : String → Option Image) (name : Nat)
    (path : String) (img : Image) (hd : stbi_load path = some img) :
    (∃ format : GLenum,
      (format = GLenum.RGBA ↔ img.nrChannels = 4) ∧
      (img.nrChannels ≠ 4 → format = GLenum.RGB) ∧
      (loadTexture stbi_load name path : Nat × List (Call K)) =
        (name,
          [ Call.glGenTextures 1 name,
            Call.glBindTexture GLenum.TEXTURE_2D name,
            Call.glTexParameteri GLenum.TEXTURE_2D GLenum.TEXTURE_WRAP_S GLenum.CLAMP_TO_EDGE,
            Call.glTexParameteri GLenum.TEXTURE_2D GLenum.TEXTURE_WRAP_T GLenum.CLAMP_TO_EDGE,
            Call.glTexParameteri GLenum.TEXTURE_2D GLenum.TEXTURE_MIN_FILTER GLenum.LINEAR,
            Call.glTexParameteri GLenum.TEXTURE_2D GLenum.TEXTURE_MAG_FILTER GLenum.LINEAR,
            Call.glTexImage2D GLenum.TEXTURE_2D 0 format img.width img.height 0 format
              GLenum.UNSIGNED_BYTE img.data,
            Call.glGenerateMipmap GLenum.TEXTURE_2D,
            Call.stbi_image_free (some img.data) ])) ∧
    coutLines (loadTexture stbi_load name path : Nat × List (Call K)).2 = [] ∧
    (img.nrChannels ≠ 4 →
      (loadTexture stbi_load name path : Nat × List (Call K)) =
        loadTexture (fun _ => some { img with nrChannels := 3 }) name path) := by
  refine ⟨⟨if img.nrChannels = 4 then GLenum.RGBA else GLenum.RGB, ?_, ?_, ?_⟩, ?_, ?_⟩
  · by_cases h : img.nrChannels = 4 <;> simp [h]
  · intro h; simp [h]
  · simp [loadTexture, hd]
  · simp [loadTexture, hd, coutLines]
  · intro h; simp [loadTexture, hd, h]

/-- C10 at a decoder that yields a 1 × 1 image of one channel: the upload is
RGB. -/
theorem loadTexture_format_by_channel_count_witness :
    (fun _ : String => some (⟨1, 1, 1, [9]⟩ : Image)) "textures/grey.png" = some ⟨1, 1, 1, [9]⟩ ∧
    (loadTexture (fun _ => some ⟨1, 1, 1, [9]⟩) 5 "textures/grey.png" : Nat × List (Call ℚ)) =
      loadTexture (fun _ => some ⟨1, 1, 3, [9]⟩) 5 "textures/grey.png" :=
  ⟨rfl,
   (loadTexture_format_by_channel_count (K := ℚ) (fun _ => some ⟨1, 1, 1, [9]⟩) 5
      "textures/grey.png" ⟨1, 1, 1, [9]⟩ rfl).2.2 (by decide)⟩

end TextureClaims

/-! ## Claims about drawing and the frame loop -/

section DrawClaims

variable {K F : Type}

theorem run_append (R : Renderer K F) (s t : List (Call K)) (g : GLState K F) :
    run R (s ++ t) g = (run R s g).bind (run R t) := by
  induction s generalizing g with
  | nil => rfl
  | cons c s ih =>
    simp only [List.cons_append, run]
    cases exec R c g with
    | none => rfl
    | some g1 => exact ih g1

theorem run_draw (R : Renderer F32 F) (ops : MathFns F32) (S : Sprite F32) (P : Mat4 F32)
    (g : GLState F32 F) : run R (S.draw ops P).2 g = some (S.drawn R ops P g) := by
  simp [Sprite.draw, run, exec, Sprite.drawn, Sprite.drawInput]

theorem drawn_drawn (R : Renderer F32 F) (ops : MathFns F32) (S : Sprite F32) (P : Mat4 F32)
    (g : GLState F32 F) :
    S.drawn R ops P { S.drawn R ops P g with framebuffer := g.framebuffer } =
      S.drawn R ops P g := by
  simp only [Sprite.drawn, GLState.mk.injEq, and_true, true_and]
  funext q m
  split_ifs <;> rfl

/-- C7: `Sprite::draw` returns the sprite with every field as it was; a second
call with the same projection makes the same calls as the first (use, the
`model` and `projection` uniforms, texture bind, vertex-array bind, a draw of 6
vertices as triangles, unbind); and from any OpenGL state the first call
renders one draw that depends only on the sprite, the projection and the
framebuffer, while the second call, started from the same framebuffer contents,
ends in the same state with the same framebuffer as the first. -/
theorem draw_idempotent (R : Renderer F32 F) (ops : MathFns F32) (S : Sprite F32)
    (P : Mat4 F32) :
    (S.draw ops P).1 = S ∧
    ((S.draw ops P).1.draw ops P).2 = (S.draw ops P).2 ∧
    (S.draw ops P).2 =
      [ Call.shaderUse S.shader,
        Call.shaderSetMat4 S.shader "model" (S.drawModel ops),
        Call.shaderSetMat4 S.shader "projection" P,
        Call.glBindTexture GLenum.TEXTURE_2D S.textureID,
        Call.glBindVertexArray S.VAO,
        Call.glDrawArrays GLenum.TRIANGLES 0 6,
        Call.glBindVertexArray 0 ] ∧
    ∀ g : GLState F32 F, ∃ g1 : GLState F32 F,
      run R (S.draw ops P).2 g = some g1 ∧
      g1.framebuffer = R.draw (S.drawInput ops P) g.framebuffer ∧
      run R ((S.draw ops P).1.draw ops P).2 { g1 with framebuffer := g.framebuffer } =
        some g1 := by
  refine ⟨rfl, rfl, rfl, fun g => ⟨S.drawn R ops P g, run_draw R ops S P g, rfl, ?_⟩⟩
  have h1 : (S.draw ops P).1 = S := rfl
  rw [h1, run_draw, drawn_drawn]

end DrawClaims

section FrameClaims

variable {K X : Type}

theorem enabledCaps_append (s t : List (Call K)) :
    enabledCaps (s ++ t) = enabledCaps s ++ enabledCaps t := by
  induction s with
  | nil => rfl
  | cons c s ih => cases c <;> simp [enabledCaps, ih]

theorem enabledCaps_loadTexture (stbi_load : String → Option Image) (name : Nat)
    (path : String) : enabledCaps (loadTexture stbi_load name path : Nat × List (Call K)).2 = [] := by
  unfold loadTexture
  cases stbi_load path <;> simp [enabledCaps]

theorem texRun_append (s t : List (Call K)) (ts : TexState) :
    texRun (s ++ t) ts = texRun t (texRun s ts) := by
  induction s generalizing ts with
  | nil => rfl
  | cons c s ih => exact ih _

theorem texRun_loadTexture (stbi_load : String → Option Image) (name : Nat) (path : String)
    (ts : TexState) :
    texRun (loadTexture stbi_load name path : Nat × List (Call K)).2 ts =
      { bound := name
        image := fun n =>
          if n = name then
            (match stbi_load path with
             | some img => some img.uploaded
             | none => ts.image n)
          else ts.image n } := by
  unfold loadTexture
  cases h : stbi_load path with
  | none =>
    simp only [texRun, texExec, List.cons_append, List.nil_append]
    congr 1
    funext n
    split_ifs <;> rfl
  | some img =>
    simp only [texRun, texExec, List.cons_append, List.nil_append, Image.uploaded]

theorem run_frame_painter (covers : DrawInput F32 → X → Bool) (ops : MathFns F32) (sc : Scene)
    (g : GLState F32 (X → List Nat)) :
    run (painter covers) (frame ops sc).2 g =
      some (sc.character.drawn (painter covers) ops sc.projection
        (sc.dragon.drawn (painter covers) ops sc.projection
          (sc.tree.drawn (painter covers) ops sc.projection
            (sc.background.drawn (painter covers) ops sc.projection
              { g with clearColor := (0.3, 0.4, 0.6, 1.0), framebuffer := fun _ => [] })))) := by
  simp only [frame, run_append, run_draw, Option.bind_eq_bind, Option.some_bind]
  simp [run, exec, painter]

theorem frame_fst (ops : MathFns F32) (sc : Scene) : (frame ops sc).1 = sc := rfl

theorem mainLoop_closed (ops : MathFns F32) (sc : Scene) (n : Nat) (rest : List Bool) :
    mainLoop ops sc (List.replicate n false ++ true :: rest) =
      some (sc, (List.replicate n (frame ops sc).2).flatten) := by
  induction n with
  | zero => rfl
  | succ n ih =>
    simp only [List.replicate_succ, List.cons_append, mainLoop, frame_fst,
      List.flatten_cons, List.append_eq, ih]

theorem mainLoop_open (ops : MathFns F32) (sc : Scene) (n : Nat) :
    mainLoop ops sc (List.replicate n false) = none := by
  induction n with
  | zero => rfl
  | succ n ih => simp only [List.replicate_succ, mainLoop, frame_fst, ih]

theorem setup_calls (env : Env) :
    (setup env).2 =
      [ Call.glfwInit,
        Call.glfwWindowHint GLFWenum.CONTEXT_VERSION_MAJOR (Sum.inl 3),
        Call.glfwWindowHint GLFWenum.CONTEXT_VERSION_MINOR (Sum.inl 3),
        Call.glfwWindowHint GLFWenum.OPENGL_PROFILE (Sum.inr GLFWenum.OPENGL_CORE_PROFILE),
        Call.glfwCreateWindow 800 600 "Sprite Scene" env.window,
        Call.glfwMakeContextCurrent env.window,
        Call.gladLoadGLLoader,
        Call.glEnable GLenum.BLEND,
        Call.glBlendFunc GLenum.SRC_ALPHA GLenum.ONE_MINUS_SRC_ALPHA,
        Call.shaderCreate env.shader "shaders/vertex_shader.glsl"
          "shaders/fragment_shader.glsl",
        Call.glGenVertexArrays 1 env.vaoName,
        Call.glGenBuffers 1 env.vboName,
        Call.glBindVertexArray env.vaoName,
        Call.glBindBuffer GLenum.ARRAY_BUFFER env.vboName,
        Call.glBufferData GLenum.ARRAY_BUFFER vertices GLenum.STATIC_DRAW,
        Call.glVertexAttribPointer 0 2 GLenum.FLOAT false 4 0,
        Call.glEnableVertexAttribArray 0,
        Call.glVertexAttribPointer 1 2 GLenum.FLOAT false 4 2,
        Call.glEnableVertexAttribArray 1 ] ++
      (loadTexture env.stbi_load (env.texName 0) "textures/tree.png").2 ++
      (loadTexture env.stbi_load (env.texName 1) "textures/dragon.png").2 ++
      (loadTexture env.stbi_load (env.texName 2) "textures/character.png").2 ++
      (loadTexture env.stbi_load (env.texName 3) "textures/background.png").2 := rfl

theorem enabledCaps_frames (ops : MathFns F32) (sc : Scene) (n : Nat) :
    enabledCaps (List.replicate n (frame ops sc).2).flatten = [] := by
  induction n with
  | zero => rfl
  | succ n ih =>
    simp only [List.replicate_succ, List.flatten_cons, enabledCaps_append, ih]
    simp [frame, Sprite.draw, enabledCaps]

theorem texRun_frames_image (ops : MathFns F32) (sc : Scene) (n : Nat) (ts : TexState) :
    (texRun (List.replicate n (frame ops sc).2).flatten ts).image = ts.image := by
  induction n generalizing ts with
  | zero => rfl
  | succ n ih =>
    simp only [List.replicate_succ, List.flatten_cons, texRun_append, ih]
    simp [frame, Sprite.draw, texRun, texExec]

theorem texRun_loadTexture_self (stbi_load : String → Option Image) (name : Nat)
    (path : String) (ts : TexState) (h : ts.image name = none) :
    (texRun (loadTexture stbi_load name path : Nat × List (Call K)).2 ts).image name =
      (stbi_load path).map Image.uploaded := by
  rw [texRun_loadTexture]
  cases stbi_load path <;> simp [h]

theorem texRun_loadTexture_other (stbi_load : String → Option Image) (name : Nat)
    (path : String) (ts : TexState) (n : Nat) (h : n ≠ name) :
    (texRun (loadTexture stbi_load name path : Nat × List (Call K)).2 ts).image n =
      ts.image n := by
  rw [texRun_loadTexture]
  simp [h]

/-- C6: when the four generated texture names are distinct, a run of `main` in
which the loop test finds the window open n times and then closed makes the
calls of the set-up, then n times the calls of one frame, then `glfwTerminate`
(and while the test never finds it closed, `main` has not ended); the set-up is
GLFW and window creation, blending, the shader, the mesh and the four texture
loads; every frame is: set the clear colour and clear the colour buffer, draw
background, tree, dragon, character in this order with the one projection,
swap buffers, poll events; after the set-up, and after any number of frames,
the texture each sprite binds holds the image decoded from
`textures/background.png`, `tree.png`, `dragon.png`, `character.png`
respectively (no image when the file does not decode); the only capability
`main` enables is blending (no depth test); and in the painter's model the
textures on a pixel after a frame are, bottom to top, those of the sprites that
cover it, in draw order. -/
theorem frame_draws_in_fixed_order (ops : MathFns F32) (env : Env)
    (hinj : Function.Injective env.texName) :
    (∀ (n : Nat) (rest : List Bool),
      main ops env (List.replicate n false ++ true :: rest) =
        some ((setup env).2 ++
          (List.replicate n (frame ops (setup env).1).2).flatten ++
          [Call.glfwTerminate])) ∧
    (∀ n : Nat, main ops env (List.replicate n false) = none) ∧
    (setup env).2 =
      [ Call.glfwInit,
        Call.glfwWindowHint GLFWenum.CONTEXT_VERSION_MAJOR (Sum.inl 3),
        Call.glfwWindowHint GLFWenum.CONTEXT_VERSION_MINOR (Sum.inl 3),
        Call.glfwWindowHint GLFWenum.OPENGL_PROFILE (Sum.inr GLFWenum.OPENGL_CORE_PROFILE),
        Call.glfwCreateWindow 800 600 "Sprite Scene" env.window,
        Call.glfwMakeContextCurrent env.window,
        Call.gladLoadGLLoader,
        Call.glEnable GLenum.BLEND,
        Call.glBlendFunc GLenum.SRC_ALPHA GLenum.ONE_MINUS_SRC_ALPHA,
        Call.shaderCreate env.shader "shaders/vertex_shader.glsl"
          "shaders/fragment_shader.glsl",
        Call.glGenVertexArrays 1 env.vaoName,
        Call.glGenBuffers 1 env.vboName,
        Call.glBindVertexArray env.vaoName,
        Call.glBindBuffer GLenum.ARRAY_BUFFER env.vboName,
        Call.glBufferData GLenum.ARRAY_BUFFER vertices GLenum.STATIC_DRAW,
        Call.glVertexAttribPointer 0 2 GLenum.FLOAT false 4 0,
        Call.glEnableVertexAttribArray 0,
        Call.glVertexAttribPointer 1 2 GLenum.FLOAT false 4 2,
        Call.glEnableVertexAttribArray 1 ] ++
      (loadTexture env.stbi_load (env.texName 0) "textures/tree.png").2 ++
      (loadTexture env.stbi_load (env.texName 1) "textures/dragon.png").2 ++
      (loadTexture env.stbi_load (env.texName 2) "textures/character.png").2 ++
      (loadTexture env.stbi_load (env.texName 3) "textures/background.png").2 ∧
    (frame ops (setup env).1).2 =
      [Call.glClearColor 0.3 0.4 0.6 1.0, Call.glClear GLenum.COLOR_BUFFER_BIT] ++
      ((setup env).1.background.draw ops (setup env).1.projection).2 ++
      ((setup env).1.tree.draw ops (setup env).1.projection).2 ++
      ((setup env).1.dragon.draw ops (setup env).1.projection).2 ++
      ((setup env).1.character.draw ops (setup env).1.projection).2 ++
      [Call.glfwSwapBuffers env.window, Call.glfwPollEvents] ∧
    (∀ n : Nat,
      let ts := texRun ((setup env).2 ++
        (List.replicate n (frame ops (setup env).1).2).flatten) TexState.init
      ts.image (setup env).1.background.textureID =
        (env.stbi_load "textures/background.png").map Image.uploaded ∧
      ts.image (setup env).1.tree.textureID =
        (env.stbi_load "textures/tree.png").map Image.uploaded ∧
      ts.image (setup env).1.dragon.textureID =
        (env.stbi_load "textures/dragon.png").map Image.uploaded ∧
      ts.image (setup env).1.character.textureID =
        (env.stbi_load "textures/character.png").map Image.uploaded) ∧
    (∀ n : Nat,
      enabledCaps ((setup env).2 ++
        (List.replicate n (frame ops (setup env).1).2).flatten) = [GLenum.BLEND]) ∧
    ∀ (covers : DrawInput F32 → X → Bool) (g : GLState F32 (X → List Nat)),
      ∃ g1 : GLState F32 (X → List Nat),
        run (painter covers) (frame ops (setup env).1).2 g = some g1 ∧
        ∀ px : X,
          g1.framebuffer px =
            (([(setup env).1.background, (setup env).1.tree, (setup env).1.dragon,
                (setup env).1.character].map
                (fun S => S.drawInput ops (setup env).1.projection)).filter
              (fun d => covers d px)).map DrawInput.texture := by
  have h01 : env.texName 0 ≠ env.texName 1 := fun h => absurd (hinj h) (by decide)
  have h02 : env.texName 0 ≠ env.texName 2 := fun h => absurd (hinj h) (by decide)
  have h03 : env.texName 0 ≠ env.texName 3 := fun h => absurd (hinj h) (by decide)
  have h12 : env.texName 1 ≠ env.texName 2 := fun h => absurd (hinj h) (by decide)
  have h13 : env.texName 1 ≠ env.texName 3 := fun h => absurd (hinj h) (by decide)
  have h23 : env.texName 2 ≠ env.texName 3 := fun h => absurd (hinj h) (by decide)
  have hbg : (setup env).1.background.textureID = env.texName 3 := by
    show (loadTexture env.stbi_load (env.texName 3) "textures/background.png").1 = _
    unfold loadTexture; cases env.stbi_load "textures/background.png" <;> rfl
  have htree : (setup env).1.tree.textureID = env.texName 0 := by
    show (loadTexture env.stbi_load (env.texName 0) "textures/tree.png").1 = _
    unfold loadTexture; cases env.stbi_load "textures/tree.png" <;> rfl
  have hdragon : (setup env).1.dragon.textureID = env.texName 1 := by
    show (loadTexture env.stbi_load (env.texName 1) "textures/dragon.png").1 = _
    unfold loadTexture; cases env.stbi_load "textures/dragon.png" <;> rfl
  have hchar : (setup env).1.character.textureID = env.texName 2 := by
    show (loadTexture env.stbi_load (env.texName 2) "textures/character.png").1 = _
    unfold loadTexture; cases env.stbi_load "textures/character.png" <;> rfl
  refine ⟨fun n rest => ?_, fun n => ?_, setup_calls env, rfl, fun n => ?_, fun n => ?_,
    fun covers g => ?_⟩
  · simp only [main, mainLoop_closed]
  · simp only [main, mainLoop_open]
  · intro ts
    have hts : ts.image = (texRun (setup env).2 TexState.init).image := by
      simp only [ts, texRun_append, texRun_frames_image]
    have hinit : ∀ k : Nat, TexState.init.image k = none := fun _ => rfl
    rw [hts, hbg, htree, hdragon, hchar, setup_calls]
    simp only [texRun_append]
    have h0 : texRun
        ([ Call.glfwInit,
          Call.glfwWindowHint GLFWenum.CONTEXT_VERSION_MAJOR (Sum.inl 3),
          Call.glfwWindowHint GLFWenum.CONTEXT_VERSION_MINOR (Sum.inl 3),
          Call.glfwWindowHint GLFWenum.OPENGL_PROFILE (Sum.inr GLFWenum.OPENGL_CORE_PROFILE),
          Call.glfwCreateWindow 800 600 "Sprite Scene" env.window,
          Call.glfwMakeContextCurrent env.window,
          Call.gladLoadGLLoader,
          Call.glEnable GLenum.BLEND,
          Call.glBlendFunc GLenum.SRC_ALPHA GLenum.ONE_MINUS_SRC_ALPHA,
          Call.shaderCreate env.shader "shaders/vertex_shader.glsl"
            "shaders/fragment_shader.glsl",
          Call.glGenVertexArrays 1 env.vaoName,
          Call.glGenBuffers 1 env.vboName,
          Call.glBindVertexArray env.vaoName,
          Call.glBindBuffer GLenum.ARRAY_BUFFER env.vboName,
          Call.glBufferData GLenum.ARRAY_BUFFER vertices GLenum.STATIC_DRAW,
          Call.glVertexAttribPointer 0 2 GLenum.FLOAT false 4 0,
          Call.glEnableVertexAttribArray 0,
          Call.glVertexAttribPointer 1 2 GLenum.FLOAT false 4 2,
          Call.glEnableVertexAttribArray 1 ] : List (Call F32)) TexState.init =
        TexState.init := rfl
    rw [h0]
    refine ⟨?_, ?_, ?_, ?_⟩
    · rw [texRun_loadTexture_self]
      rw [texRun_loadTexture_other _ _ _ _ _ h23.symm,
        texRun_loadTexture_other _ _ _ _ _ h13.symm,
        texRun_loadTexture_other _ _ _ _ _ h03.symm]
      rfl
    · rw [texRun_loadTexture_other _ _ _ _ _ h03, texRun_loadTexture_other _ _ _ _ _ h02,
        texRun_loadTexture_other _ _ _ _ _ h01, texRun_loadTexture_self _ _ _ _ (hinit _)]
    · rw [texRun_loadTexture_other _ _ _ _ _ h13, texRun_loadTexture_other _ _ _ _ _ h12,
        texRun_loadTexture_self]
      rw [texRun_loadTexture_other _ _ _ _ _ h01.symm]
      rfl
    · rw [texRun_loadTexture_other _ _ _ _ _ h23, texRun_loadTexture_self]
      rw [texRun_loadTexture_other _ _ _ _ _ h12.symm,
        texRun_loadTexture_other _ _ _ _ _ h02.symm]
      rfl
  · simp only [enabledCaps_append, enabledCaps_frames, setup_calls, enabledCaps_loadTexture]
    simp [enabledCaps]
  · refine ⟨_, run_frame_painter covers ops _ g, fun px => ?_⟩
    simp only [Sprite.drawn, painter, List.map_cons, List.map_nil, List.filter_cons,
      List.filter_nil]
    split_ifs <;> simp [Sprite.drawInput]

end FrameClaims

/-- C6 at the sample environment: one frame, then the window is closed; the
tree texture holds the decoded image and the background texture, whose file
does not decode, holds none. -/
theorem frame_draws_in_fixed_order_witness :
    Function.Injective sampleEnv.texName ∧
    main libm sampleEnv [false, true] =
      some ((setup sampleEnv).2 ++ (frame libm (setup sampleEnv).1).2 ++
        [Call.glfwTerminate]) ∧
    (texRun (setup sampleEnv).2 TexState.init).image (setup sampleEnv).1.tree.textureID =
      some ⟨GLenum.RGB, 2, 1, GLenum.RGB, GLenum.UNSIGNED_BYTE, [255, 0, 0, 0, 255, 0]⟩ ∧
    (texRun (setup sampleEnv).2 TexState.init).image
      (setup sampleEnv).1.background.textureID = none := by
  have hinj : Function.Injective sampleEnv.texName := by
    intro a b h
    have : a.val + 1 = b.val + 1 := h
    exact Fin.ext (by omega)
  have T := frame_draws_in_fixed_order (X := Nat) libm sampleEnv hinj
  refine ⟨hinj, ?_, ?_, ?_⟩
  · simpa using T.1 1 []
  · have h := (T.2.2.2.2.1 0).2.1
    simpa [sampleEnv, sampleDecoder, Image.uploaded] using h
  · have h := (T.2.2.2.2.1 0).1
    simpa [sampleEnv, sampleDecoder] using h

end SpriteScene
